import Mathlib

/-!
# Sheepdog ZooKeeper cluster driver (`sheep/cluster/zookeeper.c`)

A shallow embedding of the driver: the module-level globals and the part of the
coordination service the driver reads and writes are the fields of one `Driver`
record, every C function is a Lean function on that record, and the calls made
to the daemon callbacks and the mutating calls made to the coordination service
are appended to a trace.

Conventions.
* `queue_pos` is an `int32_t`; signed overflow is undefined in C, so positions
  are mathematical integers and the embedding describes the executions in which
  the cursor stays inside the `int32_t` range.
* `zk_levent_head` and `zk_levent_tail` are `unsigned`; they wrap modulo `2^32`.
* A znode of `queue/` holds the bytes `header ++ buf[0 .. buf_len)`; it is kept
  as the `zk_event` whose `buf` is cut to `buf_len` bytes (`event_data`).
* The transient return codes are retried inside the wrappers, so a wrapper
  returns either `ZOK` or `ZNONODE`.
-/

namespace Zookeeper

/-! ## Data model -/

/-- Modelled from the spec: `struct sd_node` (declared outside this file). A node
carries its node-id `nid`, which alone decides equality and order, and further
fields (`rest`) that the driver copies but never inspects. -/
structure sd_node where
  nid : Nat
  rest : Nat
deriving DecidableEq, Repr

/-- Modelled from the spec: `node_id_cmp`, the three-way comparison of the total
order on node-ids. -/
def node_id_cmp (a b : Nat) : Int :=
  if a < b then -1 else if b < a then 1 else 0

/-- Modelled from the spec: `node_eq`; two nodes are equal iff their node-ids
compare equal. -/
def node_eq (a b : sd_node) : Bool :=
  decide (node_id_cmp a.nid b.nid = 0)

/-- Modelled from the spec: `node_to_str`, the name of the member znode of a
node; it is determined by the node-id. -/
def node_to_str (n : sd_node) : Nat := n.nid

/-- Modelled from the spec: `str_to_node`; fills the node-id of `out` from the
znode name and leaves the other fields of `out` as they were. -/
def str_to_node (p : Nat) (out : sd_node) : sd_node :=
  { out with nid := p }

/-- The record `struct zk_node` without its tree linkage `rb`. -/
structure zk_node where
  joined : Bool
  clientid : Nat
  node : sd_node
deriving DecidableEq, Repr

/-- Modelled from the spec: `enum cluster_join_result` (declared in cluster.h). -/
inductive cluster_join_result where
  | CJ_RES_SUCCESS
  | CJ_RES_FAIL
  | CJ_RES_JOIN_LATER
  | CJ_RES_MASTER_TRANSFER
deriving DecidableEq, Repr

/-- The values of `enum zk_event_type`. -/
def EVENT_JOIN_REQUEST : Nat := 1

/-- See `EVENT_JOIN_REQUEST`. -/
def EVENT_JOIN_RESPONSE : Nat := 2

/-- See `EVENT_JOIN_REQUEST`. -/
def EVENT_LEAVE : Nat := 3

/-- See `EVENT_JOIN_REQUEST`. -/
def EVENT_BLOCK : Nat := 4

/-- See `EVENT_JOIN_REQUEST`. -/
def EVENT_NOTIFY : Nat := 5

/-- The record `struct zk_event`; `type` is the raw integer of the enum, since the
dispatcher range-checks it. -/
structure zk_event where
  type : Nat
  sender : zk_node
  join_result : cluster_join_result
  buf_len : Nat
  buf : List Nat
deriving DecidableEq, Repr

/-- The function `is_blocking_event`. -/
def is_blocking_event (ev : zk_event) : Bool :=
  decide (ev.type = EVENT_BLOCK) || decide (ev.type = EVENT_JOIN_REQUEST)

/-- The bytes sent for an event: `len = offsetof(buf) + buf_len`, i.e. the header
and the first `buf_len` payload bytes. -/
def event_data (ev : zk_event) : zk_event :=
  { ev with buf := ev.buf.take ev.buf_len }

/-- The call `memcpy(dst, src, n)` on byte arrays. -/
def memcpy (dst src : List Nat) (n : Nat) : List Nat :=
  src.take n ++ dst.drop n

/-- The tree `zk_node_root`: a binary search tree over `zk_node` entries. The
colours and the rebalancing of rbtree.c (outside this file) are not represented;
rebalancing keeps the set of entries and their in-order sequence. -/
inductive rb_node where
  | nil
  | node (rb_left : rb_node) (entry : zk_node) (rb_right : rb_node)
deriving DecidableEq, Repr

/-- What the driver hands to the daemon callbacks and which mutating calls it
issues to the coordination service, in program order. -/
inductive Obs where
  | sd_check_join_cb (n : sd_node) (buf : List Nat)
  | sd_join_handler (n : sd_node) (nodes : List sd_node) (res : cluster_join_result)
      (buf : List Nat)
  | sd_leave_handler (n : sd_node) (nodes : List sd_node)
  | sd_block_handler (n : sd_node)
  | sd_notify_handler (n : sd_node) (buf : List Nat) (len : Nat)
  | zoo_create_queue (seq : Int) (data : zk_event)
  | zoo_set_queue (pos : Int) (data : zk_event)
  | zoo_create_member (data : zk_node)
  | zoo_delete_member (name : Nat)
deriving DecidableEq, Repr

/-- The globals of zookeeper.c together with the znodes under `queue/` and
`member/` of the coordination service.
`queue n` is the data of `queue/<n>`; `member` lists the data of the children of
`member/` in the order `zoo_get_children` returns them, the child of a record
`z` being named `node_to_str z.node`. `sd_nodes` holds the first `nr_sd_nodes`
entries of the array, `efd` is the counter of the eventfd. -/
structure Driver where
  queue : Int → Option zk_event
  member : List zk_node
  zk_notify_blocked : Bool
  zk_levents : Nat → zk_event
  nr_zk_levents : Int
  zk_levent_head : Nat
  zk_levent_tail : Nat
  called_by_zk_unblock : Bool
  sd_nodes : List sd_node
  zk_node_root : rb_node
  this_node : zk_node
  efd : Nat
  queue_pos : Int
  first_push : Bool
  trace : List Obs

/-- How a C function ends: it returns, the process calls `exit`, or the process
aborts in `panic` or in a failed `assert`. -/
inductive Outcome where
  | ok (s : Driver)
  | exited (s : Driver)
  | panicked (s : Driver)

/-- The state in which the function ended. -/
def Outcome.state : Outcome → Driver
  | .ok s => s
  | .exited s => s
  | .panicked s => s

/-- What the daemon and the service answer during one dispatcher step: the value
of `sd_check_join_cb`, the value of `sd_block_handler`, and whether the `i`-th
`zk_node_exists` poll of the join-response wait loop returns `ZNONODE`. -/
structure Callbacks where
  check_join : cluster_join_result
  block : Bool
  member_absent : Nat → Bool

/-- The constant `SESSION_TIMEOUT`, in milliseconds. -/
def SESSION_TIMEOUT : Nat := 30000

/-- The constant `MEMBER_CREATE_TIMEOUT`. -/
def MEMBER_CREATE_TIMEOUT : Nat := SESSION_TIMEOUT

/-- The constant `MEMBER_CREATE_INTERVAL`, in milliseconds. -/
def MEMBER_CREATE_INTERVAL : Nat := 10

/-- The range of `unsigned`. -/
def UINT_RANGE : Nat := 4294967296

/-! ## The member tree -/

/-- The function `zk_tree_insert`: the search-tree descent; an entry with the
same node-id is returned and the tree is left alone, otherwise the new entry is
linked where the descent ended and `none` (NULL) is returned. -/
def zk_tree_insert (new : zk_node) : rb_node → Option zk_node × rb_node
  | .nil => (none, .node .nil new .nil)
  | .node l entry r =>
    if node_id_cmp new.node.nid entry.node.nid < 0 then
      ((zk_tree_insert new l).1, .node (zk_tree_insert new l).2 entry r)
    else if node_id_cmp new.node.nid entry.node.nid > 0 then
      ((zk_tree_insert new r).1, .node l entry (zk_tree_insert new r).2)
    else
      (some entry, .node l entry r)

/-- The function `zk_tree_search`. -/
def zk_tree_search (nid : Nat) : rb_node → Option zk_node
  | .nil => none
  | .node l t r =>
    if node_id_cmp nid t.node.nid < 0 then zk_tree_search nid l
    else if node_id_cmp nid t.node.nid > 0 then zk_tree_search nid r
    else some t

/-- Modelled from the spec: `rb_first`, the entry with the smallest node-id. -/
def rb_first : rb_node → Option zk_node
  | .nil => none
  | .node .nil e _ => some e
  | .node (.node ll le lr) _ _ => rb_first (.node ll le lr)

/-- The tree without its first entry. -/
def rb_erase_first : rb_node → rb_node
  | .nil => .nil
  | .node .nil _ r => r
  | .node (.node ll le lr) e r => .node (rb_erase_first (.node ll le lr)) e r

/-- Modelled from the spec: `rb_erase` of the entry with node-id `nid` (the C
function takes the pointer that `zk_tree_search` returned): the entry is
unlinked, a node with two children being replaced by its in-order successor. -/
def rb_erase (nid : Nat) : rb_node → rb_node
  | .nil => .nil
  | .node l e r =>
    if node_id_cmp nid e.node.nid < 0 then .node (rb_erase nid l) e r
    else if node_id_cmp nid e.node.nid > 0 then .node l e (rb_erase nid r)
    else
      match rb_first r with
      | none => l
      | some m => .node l m (rb_erase_first r)

/-- Modelled from the spec: the entries in the order of the iteration
`for (n = rb_first(root); n; n = rb_next(n))`. -/
def rb_inorder : rb_node → List zk_node
  | .nil => []
  | .node l e r => rb_inorder l ++ e :: rb_inorder r

/-- The function `zk_tree_add`: the copy is dropped when `zk_tree_insert` finds
the node-id already present. -/
def zk_tree_add (node : zk_node) (root : rb_node) : rb_node :=
  (zk_tree_insert node root).2

/-- The function `zk_tree_del`, applied to an entry found in the tree. -/
def zk_tree_del (node : zk_node) (root : rb_node) : rb_node :=
  rb_erase node.node.nid root

/-- The function `zk_tree_destroy`: for every entry of the array `sd_nodes`
below `nr_sd_nodes`, the tree entry with that node-id, if any, is deleted. -/
def zk_tree_destroy (s : Driver) : Driver :=
  { s with zk_node_root :=
      (s.sd_nodes.foldl
        (fun root n =>
          match zk_tree_search n.nid root with
          | some zk => zk_tree_del zk root
          | none => root)
        s.zk_node_root) }

/-- The function `build_node_list`. -/
def build_node_list (s : Driver) : Driver :=
  { s with sd_nodes := (rb_inorder s.zk_node_root).map (fun zk => zk.node) }

/-- The variable `nr_sd_nodes`. -/
def nr_sd_nodes (s : Driver) : Nat := s.sd_nodes.length

/-! ## The coordination-service wrappers -/

/-- The call `eventfd_write(efd, 1)`. -/
def eventfd_write (s : Driver) : Driver :=
  { s with efd := s.efd + 1 }

/-- The call `eventfd_read(efd, &value)` on a non-blocking eventfd: it fails
when the counter is zero and otherwise resets the counter. -/
def eventfd_read (s : Driver) : Option Driver :=
  if s.efd = 0 then none else some { s with efd := 0 }

/-- The wrapper `zk_node_exists` on a path `queue/<pos>`: whether it is `ZOK`. -/
def zk_node_exists_queue (s : Driver) (pos : Int) : Bool :=
  (s.queue pos).isSome

/-- The wrapper `zk_node_exists` on the path `member/<name>`. -/
def zk_node_exists_member (s : Driver) (name : Nat) : Bool :=
  s.member.any (fun z => decide (node_to_str z.node = name))

/-- The wrapper `zk_get_data` on a path `queue/<pos>`: the event read on `ZOK`,
`none` on `ZNONODE`. -/
def zk_get_data (s : Driver) (pos : Int) : Option zk_event :=
  s.queue pos

/-- The wrapper `zk_set_data` on the path `queue/<pos>`; it panics when the
znode does not exist. -/
def zk_set_data (pos : Int) (ev : zk_event) (s : Driver) : Outcome :=
  let s1 := { s with trace := s.trace ++ [Obs.zoo_set_queue pos (event_data ev)] }
  match s.queue pos with
  | none => .panicked s1
  | some _ =>
    .ok { s1 with queue := fun n => if n = pos then some (event_data ev) else s.queue n }

/-- The wrapper `zk_create_node` on `queue/` with `ZOO_SEQUENCE`; `seq` is the
sequence number the service assigns. -/
def zk_create_node_queue (seq : Int) (ev : zk_event) (s : Driver) : Driver :=
  { s with
    queue := fun n => if n = seq then some (event_data ev) else s.queue n
    trace := s.trace ++ [Obs.zoo_create_queue seq (event_data ev)] }

/-- The wrapper `zk_create_node` on `member/<node>` with `ZOO_EPHEMERAL`; it
panics when the znode exists. -/
def zk_create_node_member (data : zk_node) (s : Driver) : Outcome :=
  let s1 := { s with trace := s.trace ++ [Obs.zoo_create_member data] }
  if zk_node_exists_member s (node_to_str data.node) then .panicked s1
  else .ok { s1 with member := s.member ++ [data] }

/-- The wrapper `zk_delete_node` on `member/<name>`. -/
def zk_delete_node_member (name : Nat) (s : Driver) : Driver :=
  { s with
    member := s.member.filter (fun z => !decide (node_to_str z.node = name))
    trace := s.trace ++ [Obs.zoo_delete_member name] }

/-! ## The queue -/

/-- The function `zk_queue_empty`. -/
def zk_queue_empty (s : Driver) : Bool :=
  !zk_node_exists_queue s s.queue_pos

/-- The function `zk_queue_push`. -/
def zk_queue_push (seq : Int) (ev : zk_event) (s : Driver) : Driver :=
  let s1 := zk_create_node_queue seq ev s
  if s1.first_push then
    eventfd_write { s1 with queue_pos := seq, first_push := false }
  else s1

/-- The function `zk_queue_push_back`. -/
def zk_queue_push_back (ev : zk_event) (s : Driver) : Outcome :=
  let s1 := { s with queue_pos := s.queue_pos - 1 }
  zk_set_data s1.queue_pos ev s1

/-- The function `zk_queue_peek_next_notify` on the path `queue/<pos>`. -/
def zk_queue_peek_next_notify (pos : Int) (s : Driver) : Driver :=
  if zk_node_exists_queue s pos then eventfd_write s else s

/-- The result of `zk_queue_pop`: `fail` is the return value -1, `got ev` is the
return value 0 with the event stored in `*ev`. -/
inductive PopResult where
  | fail (s : Driver)
  | got (ev : zk_event) (s : Driver)
  | panicked (s : Driver)

/-- The value returned by `zk_queue_pop`, when it returns. -/
def PopResult.rc : PopResult → Option Int
  | .fail _ => some (-1)
  | .got _ _ => some 0
  | .panicked _ => none

/-- The state after `zk_queue_pop`. -/
def PopResult.state : PopResult → Driver
  | .fail s => s
  | .got _ s => s
  | .panicked s => s

/-- The function `zk_queue_pop`; `SD_MAX_NODES` is the size of the leave ring
(a constant declared outside this file). -/
def zk_queue_pop (SD_MAX_NODES : Nat) (s : Driver) : PopResult :=
  if !s.called_by_zk_unblock && decide (s.nr_zk_levents ≠ 0) then
    let s1 := { s with nr_zk_levents := s.nr_zk_levents - 1 }
    let lev := s1.zk_levents (s1.zk_levent_head % SD_MAX_NODES)
    let rc := zk_get_data s1 s1.queue_pos
    let s2 :=
      match rc with
      | some ev =>
        if node_eq ev.sender.node lev.sender.node && is_blocking_event ev then
          zk_queue_peek_next_notify (s1.queue_pos + 1)
            { s1 with queue_pos := s1.queue_pos + 1 }
        else s1
      | none => s1
    let s3 := { s2 with zk_levent_head := (s2.zk_levent_head + 1) % UINT_RANGE }
    let s4 :=
      if decide (s3.nr_zk_levents ≠ 0) || rc.isSome then eventfd_write s3 else s3
    .got lev s4
  else if !s.called_by_zk_unblock && s.zk_notify_blocked then .fail s
  else if zk_queue_empty s then .fail s
  else
    match zk_get_data s s.queue_pos with
    | none => .panicked s
    | some ev =>
      let s1 := { s with queue_pos := s.queue_pos + 1 }
      if is_blocking_event ev then .got ev s1
      else .got ev (zk_queue_peek_next_notify s1.queue_pos s1)

/-! ## Membership -/

/-- The function `zk_member_empty`. -/
def zk_member_empty (s : Driver) : Bool :=
  decide (s.member.length = 0)

/-- The function `is_master`. With `nr_sd_nodes` non-zero and an empty tree the
C code dereferences `rb_entry(NULL)`; the embedding answers `false` there. -/
def is_master (s : Driver) : Bool :=
  if nr_sd_nodes s = 0 then
    if zk_member_empty s then true else false
  else
    match rb_first s.zk_node_root with
    | some zk => if node_eq zk.node s.this_node.node then true else false
    | none => false

/-- The function `zk_member_init`; `FOR_EACH_ZNODE` walks the children from the
last one returned to the first. -/
def zk_member_init (s : Driver) : Driver :=
  if zk_member_empty s then s
  else
    { s with zk_node_root :=
        (s.member.reverse.foldl (fun root znode => zk_tree_add znode root) s.zk_node_root) }

/-! ## Producing events -/

/-- The function `add_event`; `junk` is the content of the uninitialised local
`ev`, `seq` the sequence number the service assigns to the new znode. -/
def add_event (junk : zk_event) (seq : Int) (type : Nat) (znode : zk_node)
    (buf : Option (List Nat)) (buf_len : Nat) (s : Driver) : Driver :=
  let ev : zk_event :=
    { junk with
      type := type
      sender := znode
      buf_len := buf_len
      buf := match buf with
        | some b => memcpy junk.buf b buf_len
        | none => junk.buf }
  zk_queue_push seq ev s

/-- The function `leave_event`. -/
def leave_event (SD_MAX_NODES : Nat) (znode : zk_node) (s : Driver) : Driver :=
  let i := s.zk_levent_tail % SD_MAX_NODES
  let ev : zk_event :=
    { s.zk_levents i with type := EVENT_LEAVE, sender := znode, buf_len := 0 }
  eventfd_write
    { s with
      zk_levents := fun j => if j = i then ev else s.zk_levents j
      nr_zk_levents := s.nr_zk_levents + 1
      zk_levent_tail := (s.zk_levent_tail + 1) % UINT_RANGE }

/-- The watch types of the ZooKeeper C client (zookeeper.h). -/
def ZOO_CREATED_EVENT : Int := 1

/-- See `ZOO_CREATED_EVENT`. -/
def ZOO_DELETED_EVENT : Int := 2

/-- See `ZOO_CREATED_EVENT`. -/
def ZOO_CHANGED_EVENT : Int := 3

/-- See `ZOO_CREATED_EVENT`. -/
def ZOO_CHILD_EVENT : Int := 4

/-- See `ZOO_CREATED_EVENT`. -/
def ZOO_SESSION_EVENT : Int := -1

/-- See `ZOO_CREATED_EVENT`. -/
def ZOO_NOTWATCHING_EVENT : Int := -2

/-- The paths a watch can report: `queue/<seq>`, `member/<name>`, or a path on
which `sscanf(path, MEMBER_ZNODE "/%s", str)` does not return 1 and that is no
queue znode. -/
inductive ZPath where
  | queue (seq : Int)
  | member (name : Nat)
  | other
deriving DecidableEq, Repr

/-- Whether `sscanf(path, MEMBER_ZNODE "/%s", str)` returns 1. -/
def ZPath.under_member : ZPath → Bool
  | .member _ => true
  | _ => false

/-- The function `zk_watcher`; `cid` is the value of `zoo_client_id(zh)` and
`junk` the content of the uninitialised local `znode`. On a CREATED or CHANGED
event under `member/` the C code calls `zk_node_exists` only to re-arm the watch,
which changes nothing here. -/
def zk_watcher (SD_MAX_NODES : Nat) (type : Int) (path : ZPath) (cid : Nat)
    (junk : zk_node) (s : Driver) : Driver :=
  if type < 0 ∨ type = ZOO_CHILD_EVENT then s
  else
    let s1 :=
      if type = ZOO_SESSION_EVENT then
        { s with this_node := { s.this_node with clientid := cid } }
      else s
    if type = ZOO_DELETED_EVENT then
      match path with
      | .member p =>
        leave_event SD_MAX_NODES { junk with node := str_to_node p junk.node } s1
      | _ => s1
    else eventfd_write s1

/-! ## The driver API -/

/-- The state after `zk_init` succeeded, on a service holding the given znodes. -/
def zk_init (queue : Int → Option zk_event) (member : List zk_node) : Driver :=
  { queue := queue
    member := member
    zk_notify_blocked := false
    zk_levents := fun _ =>
      { type := 0
        sender := { joined := false, clientid := 0, node := { nid := 0, rest := 0 } }
        join_result := .CJ_RES_SUCCESS
        buf_len := 0
        buf := [] }
    nr_zk_levents := 0
    zk_levent_head := 0
    zk_levent_tail := 0
    called_by_zk_unblock := false
    sd_nodes := []
    zk_node_root := .nil
    this_node := { joined := false, clientid := 0, node := { nid := 0, rest := 0 } }
    efd := 0
    queue_pos := 0
    first_push := true
    trace := [] }

/-- The function `zk_join`. -/
def zk_join (junk : zk_event) (seq : Int) (cid : Nat) (myself : sd_node)
    (payload : Option (List Nat)) (payload_len : Nat) (s : Driver) : Outcome :=
  let s1 := { s with this_node := { s.this_node with node := myself } }
  if zk_node_exists_member s1 (node_to_str myself) then .exited s1
  else
    let s2 := { s1 with this_node := { s1.this_node with joined := false, clientid := cid } }
    .ok (add_event junk seq EVENT_JOIN_REQUEST s2.this_node payload payload_len s2)

/-- The function `zk_leave`. -/
def zk_leave (s : Driver) : Driver :=
  zk_delete_node_member (node_to_str s.this_node.node) s

/-- The function `zk_notify`. -/
def zk_notify (junk : zk_event) (seq : Int) (msg : Option (List Nat)) (msg_len : Nat)
    (s : Driver) : Driver :=
  add_event junk seq EVENT_NOTIFY s.this_node msg msg_len s

/-- The function `zk_block`. -/
def zk_block (junk : zk_event) (seq : Int) (s : Driver) : Driver :=
  add_event junk seq EVENT_BLOCK s.this_node none 0 s

/-- The function `zk_unblock`. -/
def zk_unblock (SD_MAX_NODES : Nat) (msg : Option (List Nat)) (msg_len : Nat)
    (s : Driver) : Outcome :=
  match zk_queue_pop SD_MAX_NODES { s with called_by_zk_unblock := true } with
  | .panicked s1 => .panicked s1
  | .fail s1 => .panicked { s1 with called_by_zk_unblock := false }
  | .got ev s1 =>
    let s2 := { s1 with called_by_zk_unblock := false }
    let ev1 : zk_event :=
      { ev with
        type := EVENT_NOTIFY
        buf_len := msg_len
        buf := match msg with
          | some m => memcpy ev.buf m msg_len
          | none => ev.buf }
    match zk_queue_push_back ev1 s2 with
    | .ok s3 => .ok (eventfd_write { s3 with zk_notify_blocked := false })
    | o => o

/-! ## The handlers and the dispatcher -/

/-- The function `zk_handle_join_request`. -/
def zk_handle_join_request (cb : Callbacks) (ev : zk_event) (s : Driver) : Outcome :=
  if !is_master s then .ok { s with queue_pos := s.queue_pos - 1 }
  else
    let res := cb.check_join
    let s1 := { s with trace := s.trace ++ [Obs.sd_check_join_cb ev.sender.node ev.buf] }
    let ev1 : zk_event :=
      { ev with
        join_result := res
        type := EVENT_JOIN_RESPONSE
        sender := { ev.sender with joined := true } }
    match zk_queue_push_back ev1 s1 with
    | .ok s2 =>
      if res = .CJ_RES_MASTER_TRANSFER then .exited (zk_leave s2) else .ok s2
    | o => o

/-- The wait loop of `zk_handle_join_response`,
`while (retry && zk_node_exists(path) == ZNONODE) retry--`, started at poll
number `i`; the value is the final `retry`. -/
def wait_member_created (absent : Nat → Bool) : Nat → Nat → Nat
  | 0, _ => 0
  | retry + 1, i => if absent i then wait_member_created absent retry (i + 1) else retry + 1

/-- The part of `zk_handle_join_response` after the wait loop. -/
def zk_handle_join_response_tail (ev : zk_event) (s : Driver) : Outcome :=
  let s1 := if node_eq ev.sender.node s.this_node.node then zk_member_init s else s
  let s2 := if ev.join_result = .CJ_RES_MASTER_TRANSFER then zk_tree_destroy s1 else s1
  let s3 := { s2 with zk_node_root := zk_tree_add ev.sender s2.zk_node_root }
  let o4 : Outcome :=
    match ev.join_result with
    | .CJ_RES_FAIL => .ok s3
    | _ =>
      if node_eq ev.sender.node s3.this_node.node then zk_create_node_member ev.sender s3
      else .ok s3
  match o4 with
  | .ok s4 =>
    let s5 := build_node_list s4
    .ok { s5 with trace := s5.trace ++
            [Obs.sd_join_handler ev.sender.node s5.sd_nodes ev.join_result ev.buf] }
  | o => o

/-- The function `zk_handle_join_response`. -/
def zk_handle_join_response (cb : Callbacks) (ev : zk_event) (s : Driver) : Outcome :=
  if is_master s && !node_eq ev.sender.node s.this_node.node then
    if wait_member_created cb.member_absent
        (MEMBER_CREATE_TIMEOUT / MEMBER_CREATE_INTERVAL) 0 ≤ 0 then .ok s
    else zk_handle_join_response_tail ev s
  else zk_handle_join_response_tail ev s

/-- The function `zk_handle_leave`. -/
def zk_handle_leave (_cb : Callbacks) (ev : zk_event) (s : Driver) : Outcome :=
  match zk_tree_search ev.sender.node.nid s.zk_node_root with
  | none => .ok s
  | some n =>
    let s1 := build_node_list { s with zk_node_root := zk_tree_del n s.zk_node_root }
    .ok { s1 with trace := s1.trace ++ [Obs.sd_leave_handler ev.sender.node s1.sd_nodes] }

/-- The function `zk_handle_block`; `uatomic_set_true` answers whether the flag
was clear, and the `assert` aborts when it was not. -/
def zk_handle_block (cb : Callbacks) (ev : zk_event) (s : Driver) : Outcome :=
  let s1 :=
    { s with
      queue_pos := s.queue_pos - 1
      trace := s.trace ++ [Obs.sd_block_handler ev.sender.node] }
  if cb.block then
    if s1.zk_notify_blocked then .panicked s1
    else .ok { s1 with zk_notify_blocked := true }
  else .ok s1

/-- The function `zk_handle_notify`. -/
def zk_handle_notify (_cb : Callbacks) (ev : zk_event) (s : Driver) : Outcome :=
  .ok { s with trace := s.trace ++ [Obs.sd_notify_handler ev.sender.node ev.buf ev.buf_len] }

/-- The table `zk_event_handlers`; index 0 is a null entry. -/
def zk_event_handlers : Nat → Option (Callbacks → zk_event → Driver → Outcome)
  | 1 => some zk_handle_join_request
  | 2 => some zk_handle_join_response
  | 3 => some zk_handle_leave
  | 4 => some zk_handle_block
  | 5 => some zk_handle_notify
  | _ => none

/-- The constant `zk_max_event_handlers`, the size of the table. -/
def zk_max_event_handlers : Nat := 6

/-- The epoll flag `EPOLLHUP`. -/
def EPOLLHUP : Nat := 16

/-- The function `zk_event_handler`, one dispatcher step. -/
def zk_event_handler (SD_MAX_NODES : Nat) (events : Nat) (cb : Callbacks) (s : Driver) :
    Outcome :=
  if events &&& EPOLLHUP ≠ 0 then .exited s
  else
    match eventfd_read s with
    | none => .ok s
    | some s1 =>
      match zk_queue_pop SD_MAX_NODES s1 with
      | .fail s2 => .ok s2
      | .panicked s2 => .panicked s2
      | .got ev s2 =>
        if ev.type < zk_max_event_handlers then
          match zk_event_handlers ev.type with
          | some handler => handler cb ev s2
          | none => .ok s2
        else .ok s2

/-! ## Runs of the driver -/

/-- One atomic activity: a call of the driver API by the daemon, an invocation
of the watcher by the client library, one dispatcher step, or a change that the
other members of the cluster make to the znodes of the coordination service. -/
inductive Action where
  | join (junk : zk_event) (seq : Int) (cid : Nat) (myself : sd_node)
      (payload : Option (List Nat)) (payload_len : Nat)
  | leave
  | notify (junk : zk_event) (seq : Int) (msg : Option (List Nat)) (msg_len : Nat)
  | block (junk : zk_event) (seq : Int)
  | unblock (msg : Option (List Nat)) (msg_len : Nat)
  | watcher (type : Int) (path : ZPath) (cid : Nat) (junk : zk_node)
  | dispatch (events : Nat) (cb : Callbacks)
  | service (queue : Int → Option zk_event) (member : List zk_node)

/-- The effect of one activity. -/
def step (SD_MAX_NODES : Nat) : Action → Driver → Outcome
  | .join junk seq cid myself payload len, s => zk_join junk seq cid myself payload len s
  | .leave, s => .ok (zk_leave s)
  | .notify junk seq msg len, s => .ok (zk_notify junk seq msg len s)
  | .block junk seq, s => .ok (zk_block junk seq s)
  | .unblock msg len, s => zk_unblock SD_MAX_NODES msg len s
  | .watcher type path cid junk, s => .ok (zk_watcher SD_MAX_NODES type path cid junk s)
  | .dispatch events cb, s => zk_event_handler SD_MAX_NODES events cb s
  | .service queue member, s => .ok { s with queue := queue, member := member }

/-- The driver states a running process can be in between two activities,
starting from `zk_init` on any content of the coordination service. -/
inductive Reachable (SD_MAX_NODES : Nat) : Driver → Prop where
  | init (queue : Int → Option zk_event) (member : List zk_node) :
      Reachable SD_MAX_NODES (zk_init queue member)
  | step (a : Action) (s s' : Driver) :
      Reachable SD_MAX_NODES s → step SD_MAX_NODES a s = .ok s' → Reachable SD_MAX_NODES s'

/-- The leave ring is well formed: the counter is not negative and each of the
pending slots, counted from the head, was filled by `leave_event`. -/
def RingOk (SD_MAX_NODES : Nat) (s : Driver) : Prop :=
  0 ≤ s.nr_zk_levents ∧
  s.zk_levent_tail = (s.zk_levent_head + s.nr_zk_levents.toNat) % UINT_RANGE ∧
  s.zk_levent_head < UINT_RANGE ∧
  ∀ k : Nat, (k : Int) < s.nr_zk_levents →
    (s.zk_levents ((s.zk_levent_head + k) % UINT_RANGE % SD_MAX_NODES)).type = EVENT_LEAVE

/-- The in-order sequence of the tree is strictly ascending in the node-id. -/
def rb_sorted (t : rb_node) : Prop :=
  (rb_inorder t).Pairwise (fun a b => a.node.nid < b.node.nid)

/-- The member tree is a search tree and the array `sd_nodes` is its snapshot. -/
def TreeOk (s : Driver) : Prop :=
  rb_sorted s.zk_node_root ∧
  s.sd_nodes = (rb_inorder s.zk_node_root).map (fun zk => zk.node)

/-- The new part of a trace consists of calls of `sd_leave_handler` only. -/
def only_leave_calls (new : List Obs) : Prop :=
  ∀ o ∈ new, ∃ n nodes, o = Obs.sd_leave_handler n nodes

/-- The leave ring and the unblock marker are the same in both states. -/
def same_ring (s s' : Driver) : Prop :=
  s'.zk_levents = s.zk_levents ∧ s'.nr_zk_levents = s.nr_zk_levents ∧
  s'.zk_levent_head = s.zk_levent_head ∧ s'.zk_levent_tail = s.zk_levent_tail ∧
  s'.called_by_zk_unblock = s.called_by_zk_unblock

/-- The member tree and its snapshot are the same in both states. -/
def same_tree (s s' : Driver) : Prop :=
  s'.zk_node_root = s.zk_node_root ∧ s'.sd_nodes = s.sd_nodes

/-- What holds of the driver between two activities. -/
def DriverInv (SD_MAX_NODES : Nat) (s : Driver) : Prop :=
  RingOk SD_MAX_NODES s ∧ TreeOk s ∧ s.called_by_zk_unblock = false

/-- The test of `zk_queue_pop` on the leave at the head of the ring: the znode at
the cursor exists, was sent by the leaver and is a blocking event. -/
def dead_blocker_at_cursor (SD_MAX_NODES : Nat) (s : Driver) : Bool :=
  match zk_get_data s s.queue_pos with
  | some ev =>
    node_eq ev.sender.node (s.zk_levents (s.zk_levent_head % SD_MAX_NODES)).sender.node &&
      is_blocking_event ev
  | none => false

/-- The trace of `s'` is the trace of `s` followed by calls of `sd_leave_handler`
only. -/
def extends_by_leave_calls (s s' : Driver) : Prop :=
  ∃ new, s'.trace = s.trace ++ new ∧ only_leave_calls new

/-- The run of a list of activities: it stops where the process exits or aborts. -/
def run (SD_MAX_NODES : Nat) : List Action → Driver → Outcome
  | [], s => .ok s
  | a :: rest, s =>
    match step SD_MAX_NODES a s with
    | .ok s' => run SD_MAX_NODES rest s'
    | o => o

/-- An activity of a run in front of the BLOCK of node `B` stored in `queue/<k>`:
a dispatcher step that does not deliver a leave of `B` (the leave at the head of
the ring, if one is pending, is not `B`), a watcher invocation, or a change of
the service that leaves the data of `queue/<k>` as it is. -/
def stalled_act_ok (SD_MAX_NODES : Nat) (k : Int) (B : sd_node) : Action → Driver → Prop
  | .dispatch _ _, s =>
    s.nr_zk_levents ≠ 0 →
      node_eq B (s.zk_levents (s.zk_levent_head % SD_MAX_NODES)).sender.node = false
  | .watcher _ _ _ _, _ => True
  | .service queue _, s => queue k = s.queue k
  | _, _ => False

/-- Every activity of the run satisfies `stalled_act_ok` in the state in which it
starts. -/
def stalled_run_ok (SD_MAX_NODES : Nat) (k : Int) (B : sd_node) : List Action → Driver → Prop
  | [], _ => True
  | a :: rest, s =>
    stalled_act_ok SD_MAX_NODES k B a s ∧
    ∀ s', step SD_MAX_NODES a s = .ok s' → stalled_run_ok SD_MAX_NODES k B rest s'

/-- The new part of a trace consists of calls of `sd_block_handler` for `B` and of
calls of `sd_leave_handler` for nodes other than `B`. -/
def stalled_calls (B : sd_node) (new : List Obs) : Prop :=
  ∀ o ∈ new, o = Obs.sd_block_handler B ∨
    ∃ n nodes, o = Obs.sd_leave_handler n nodes ∧ node_eq B n = false

/-- A BLOCK sent by the node with node-id 1, without payload. -/
def sample_block : zk_event :=
  { type := EVENT_BLOCK
    sender := { joined := true, clientid := 11, node := { nid := 1, rest := 0 } }
    join_result := .CJ_RES_SUCCESS
    buf_len := 0
    buf := [] }

/-- Callbacks whose `sd_block_handler` answers `true`. -/
def sample_cb : Callbacks :=
  { check_join := .CJ_RES_SUCCESS, block := true, member_absent := fun _ => false }

/-- A fresh driver on a service whose `queue/0` holds `sample_block`, after the
watcher reported the creation of that znode. -/
def sample_woken : Driver :=
  zk_watcher 1024 ZOO_CREATED_EVENT (.queue 0) 0
    { joined := false, clientid := 0, node := { nid := 0, rest := 0 } }
    (zk_init (fun n => if n = 0 then some sample_block else none) [])

/-- The state `sample_woken` after one dispatcher step: the block flag is set. -/
def sample_blocked : Driver :=
  (zk_event_handler 1024 0 sample_cb sample_woken).state

/-! ## The literal scenarios of the specification -/

/-- Node A, the node with the smaller node-id. -/
def node_A : sd_node := { nid := 1, rest := 0 }

/-- Node B. -/
def node_B : sd_node := { nid := 2, rest := 0 }

/-- The member record of A. -/
def member_A : zk_node := { joined := true, clientid := 11, node := node_A }

/-- The member record of B. -/
def member_B : zk_node := { joined := true, clientid := 22, node := node_B }

/-- The event BLOCK(A). -/
def block_A : zk_event :=
  { type := EVENT_BLOCK, sender := member_A, join_result := .CJ_RES_SUCCESS,
    buf_len := 0, buf := [] }

/-- The event NOTIFY(B,"z"). -/
def notify_B_z : zk_event :=
  { type := EVENT_NOTIFY, sender := member_B, join_result := .CJ_RES_SUCCESS,
    buf_len := 1, buf := [122] }

/-- The bytes of "done". -/
def msg_done : List Nat := [100, 111, 110, 101]

/-- The event NOTIFY(A,"done"). -/
def notify_A_done : zk_event :=
  { type := EVENT_NOTIFY, sender := member_A, join_result := .CJ_RES_SUCCESS,
    buf_len := 4, buf := msg_done }

/-- The queue of the scenario: `queue/2` = BLOCK(A), `queue/3` = NOTIFY(B,"z"). -/
def scenario_queue : Int → Option zk_event :=
  fun n => if n = 2 then some block_A else if n = 3 then some notify_B_z else none

/-- The state of node `me` with member set {A,B}, cursor 2 and a pending wakeup. -/
def scenario_on (me : zk_node) : Driver :=
  { zk_init scenario_queue [member_A, member_B] with
    sd_nodes := [node_A, node_B]
    zk_node_root := zk_tree_add member_B (zk_tree_add member_A .nil)
    this_node := me
    efd := 1
    queue_pos := 2
    first_push := false }

/-- Callbacks of a step in which `sd_block_handler` answers `b`. -/
def block_answer (b : Bool) : Callbacks :=
  { check_join := .CJ_RES_SUCCESS, block := b, member_absent := fun _ => false }

/-- Node A after the dispatcher step on slot 2, `sd_block_handler` answering true. -/
def scenario_A_blocked (SD_MAX_NODES : Nat) : Driver :=
  (zk_event_handler SD_MAX_NODES 0 (block_answer true) (scenario_on member_A)).state

/-- Node A after `zk_unblock("done", 4)`, called when the eventfd counter is `w`. -/
def scenario_A_unblocked (SD_MAX_NODES : Nat) (w : Nat) : Driver :=
  (zk_unblock SD_MAX_NODES (some msg_done) 4
    { scenario_A_blocked SD_MAX_NODES with efd := w }).state

/-- Node A after the first dispatcher step that follows the unblock. -/
def scenario_A_first (SD_MAX_NODES : Nat) (w : Nat) (cb : Callbacks) : Driver :=
  (zk_event_handler SD_MAX_NODES 0 cb (scenario_A_unblocked SD_MAX_NODES w)).state

/-- Node A after the second dispatcher step that follows the unblock. -/
def scenario_A_second (SD_MAX_NODES : Nat) (w : Nat) (cb cb' : Callbacks) : Driver :=
  (zk_event_handler SD_MAX_NODES 0 cb' (scenario_A_first SD_MAX_NODES w cb)).state

/-- Node B after its dispatcher step on slot 2, `sd_block_handler` answering `b`. -/
def scenario_B_seen (SD_MAX_NODES : Nat) (b : Bool) : Driver :=
  (zk_event_handler SD_MAX_NODES 0 (block_answer b) (scenario_on member_B)).state

/-- Node B after A's session ended: `member/A` is gone and the watcher reported
its deletion. -/
def scenario_B_left (SD_MAX_NODES : Nat) (b : Bool) : Driver :=
  zk_watcher SD_MAX_NODES ZOO_DELETED_EVENT (.member 1) 22
    { joined := false, clientid := 0, node := { nid := 0, rest := 0 } }
    { scenario_B_seen SD_MAX_NODES b with member := [member_B] }

/-- Node B after the dispatcher step that follows the deletion. -/
def scenario_B_leave (SD_MAX_NODES : Nat) (b : Bool) (cb : Callbacks) : Driver :=
  (zk_event_handler SD_MAX_NODES 0 cb (scenario_B_left SD_MAX_NODES b)).state

/-- Node B one dispatcher step later. -/
def scenario_B_next (SD_MAX_NODES : Nat) (b : Bool) (cb cb' : Callbacks) : Driver :=
  (zk_event_handler SD_MAX_NODES 0 cb' (scenario_B_leave SD_MAX_NODES b cb)).state

/-! ## Interleavings of leave pushes and pops -/

/-- One step of an interleaving on the leave channel: the watcher pushes a leave,
the dispatcher calls `zk_queue_pop`, or the rest of the system changes the queue,
the cursor and the block flag. -/
inductive RingOp where
  | push (znode : zk_node)
  | pop
  | other (queue : Int → Option zk_event) (queue_pos : Int) (blocked : Bool)

/-- The state of an interleaving: the driver, the senders pushed so far and the
events that `zk_queue_pop` returned while a leave was pending. -/
structure RingRun where
  s : Driver
  pushed : List zk_node
  delivered : List zk_event

/-- One step of an interleaving. -/
def ring_step (SD_MAX_NODES : Nat) : RingOp → RingRun → RingRun
  | .push z, r =>
    { r with s := leave_event SD_MAX_NODES z r.s, pushed := r.pushed ++ [z] }
  | .pop, r =>
    if r.s.nr_zk_levents ≠ 0 then
      match zk_queue_pop SD_MAX_NODES r.s with
      | .got ev s' => { r with s := s', delivered := r.delivered ++ [ev] }
      | res => { r with s := res.state }
    else { r with s := (zk_queue_pop SD_MAX_NODES r.s).state }
  | .other queue queue_pos blocked, r =>
    { r with s := { r.s with queue := queue, queue_pos := queue_pos,
                             zk_notify_blocked := blocked } }

/-- The interleaving run from left to right. -/
def ring_run (SD_MAX_NODES : Nat) : List RingOp → RingRun → RingRun
  | [], r => r
  | op :: rest, r => ring_run SD_MAX_NODES rest (ring_step SD_MAX_NODES op r)

/-- The number of pending leaves never exceeds `SD_MAX_NODES`: a leave is pushed
only while fewer than `SD_MAX_NODES` are pending. -/
def ring_bounded (SD_MAX_NODES : Nat) : List RingOp → RingRun → Prop
  | [], _ => True
  | op :: rest, r =>
    (match op with
      | .push _ => r.s.nr_zk_levents < SD_MAX_NODES
      | _ => True) ∧
    ring_bounded SD_MAX_NODES rest (ring_step SD_MAX_NODES op r)

/-- The number of pushes of an interleaving. -/
def ring_pushes : List RingOp → Nat
  | [] => 0
  | .push _ :: rest => ring_pushes rest + 1
  | _ :: rest => ring_pushes rest

/-- The ring index is unambiguous: the ring size divides `2^32` and is smaller, or
the head does not wrap within the pending leaves and `rem` further pushes. -/
def ring_no_alias (SD_MAX_NODES : Nat) (s : Driver) (rem : Nat) : Prop :=
  (SD_MAX_NODES ∣ UINT_RANGE ∧ SD_MAX_NODES < UINT_RANGE) ∨
  s.zk_levent_head + s.nr_zk_levents.toNat + rem < UINT_RANGE

/-- What holds during an interleaving from the empty channel, `rem` pushes being
still to come. -/
def RingFifo (SD_MAX_NODES : Nat) (rem : Nat) (r : RingRun) : Prop :=
  r.s.called_by_zk_unblock = false ∧
  0 ≤ r.s.nr_zk_levents ∧ r.s.nr_zk_levents ≤ SD_MAX_NODES ∧
  r.s.zk_levent_head < UINT_RANGE ∧
  r.s.zk_levent_tail = (r.s.zk_levent_head + r.s.nr_zk_levents.toNat) % UINT_RANGE ∧
  r.pushed.length = r.delivered.length + r.s.nr_zk_levents.toNat ∧
  r.delivered.map (fun ev => ev.sender) = r.pushed.take r.delivered.length ∧
  (∀ ev ∈ r.delivered, ev.type = EVENT_LEAVE) ∧
  (∀ i : Nat, i < r.s.nr_zk_levents.toNat →
    (r.s.zk_levents ((r.s.zk_levent_head + i) % UINT_RANGE % SD_MAX_NODES)).type
        = EVENT_LEAVE ∧
    r.pushed[r.delivered.length + i]? =
      some (r.s.zk_levents ((r.s.zk_levent_head + i) % UINT_RANGE % SD_MAX_NODES)).sender) ∧
  ring_no_alias SD_MAX_NODES r.s rem

/-- The start of an interleaving in driver state `s`: nothing pushed, nothing
delivered. -/
def ring_start (s : Driver) : RingRun :=
  { s := s, pushed := [], delivered := [] }

/-- A short interleaving: A leaves, B leaves, one pop. -/
def sample_ring_ops : List RingOp := [.push member_A, .push member_B, .pop]

/-- The JOIN_RESPONSE that the master writes for the JOIN_REQUEST `ev` when
`sd_check_join_cb` answers `res`, as stored in the znode. -/
def join_response_of (ev : zk_event) (res : cluster_join_result) : zk_event :=
  { type := EVENT_JOIN_RESPONSE
    sender := { joined := true, clientid := ev.sender.clientid, node := ev.sender.node }
    join_result := res
    buf_len := ev.buf_len
    buf := ev.buf.take ev.buf_len }

/-- The event JOIN_REQUEST(A) with the payload "x". -/
def join_request_A : zk_event :=
  { type := EVENT_JOIN_REQUEST
    sender := { joined := false, clientid := 11, node := node_A }
    join_result := .CJ_RES_FAIL
    buf_len := 1
    buf := [120] }

/-- The bootstrap: no member znode, `queue/0` = JOIN_REQUEST(A), and the local
node has just popped slot 0. -/
def bootstrap_popped : Driver :=
  { zk_init (fun n => if n = 0 then some join_request_A else none) [] with
    this_node := { joined := false, clientid := 11, node := node_A }
    queue_pos := 1
    first_push := false }

/-- Node C, a joiner. -/
def node_C : sd_node := { nid := 3, rest := 0 }

/-- The member record of C as the master stamps it. -/
def member_C : zk_node := { joined := true, clientid := 33, node := node_C }

/-- The event JOIN_RESPONSE{MASTER_TRANSFER} about C, without payload. -/
def transfer_response_C : zk_event :=
  { type := EVENT_JOIN_RESPONSE, sender := member_C,
    join_result := .CJ_RES_MASTER_TRANSFER, buf_len := 0, buf := [] }

/-- Master transfer seen from the joiner C while `member/A` still exists: C
calls `zk_join` (its request gets sequence number 0), the master A rewrites slot 0
as JOIN_RESPONSE{MASTER_TRANSFER}, and C's dispatcher handles the response. -/
def transfer_run : List Action :=
  [ .join { type := 0, sender := member_C, join_result := .CJ_RES_SUCCESS, buf_len := 0,
            buf := [] } 0 33 node_C none 0,
    .service (fun n => if n = 0 then some transfer_response_C else none) [member_A],
    .dispatch 0 (block_answer false) ]

/-- The specification's local-is-master predicate: the member set is empty and
the service reports no child of `member/`, or the member with the smallest node-id
is `this_node` (as `node_eq` compares nodes). -/
def master_by_spec (s : Driver) : Prop :=
  (rb_inorder s.zk_node_root = [] ∧ s.member = []) ∨
  ∃ m, m ∈ rb_inorder s.zk_node_root ∧
    (∀ x ∈ rb_inorder s.zk_node_root, m.node.nid ≤ x.node.nid) ∧
    node_eq m.node s.this_node.node = true

/-! ## Member sets and snapshots -/

/-- The member trees that sequences of `zk_tree_add` and `zk_tree_del` calls build
from the empty tree. -/
inductive TreeBuilt : rb_node → Prop where
  | empty : TreeBuilt .nil
  | add (z : zk_node) (t : rb_node) : TreeBuilt t → TreeBuilt (zk_tree_add z t)
  | del (z : zk_node) (t : rb_node) : TreeBuilt t → TreeBuilt (zk_tree_del z t)

/-- A node list in strictly ascending node-id order. -/
def ascending (nodes : List sd_node) : Prop :=
  nodes.Pairwise (fun a b => a.nid < b.nid)

/-- The record `z` is a member: the lookup of its node-id finds it. -/
def is_member (z : zk_node) (t : rb_node) : Prop :=
  zk_tree_search z.node.nid t = some z

/-! ## Queue paths as byte strings -/

/-- The bytes of `QUEUE_ZNODE "/"`, i.e. of "/sheepdog/queue/". -/
def QUEUE_ZNODE_SLASH : List Nat :=
  [47, 115, 104, 101, 101, 112, 100, 111, 103, 47, 113, 117, 101, 117, 101, 47]

/-- The `w` low decimal digits of `n` in ASCII, most significant first. -/
def dec_digits : Nat → Nat → List Nat
  | 0, _ => []
  | w + 1, n => dec_digits w (n / 10) ++ [48 + n % 10]

/-- The call `sprintf(path, QUEUE_ZNODE "/%010" PRId32, queue_pos)` for a cursor in
the `int32_t` range: ten zero-padded digits, the sign counting towards the width. -/
def sprintf_queue_path (pos : Int) : List Nat :=
  QUEUE_ZNODE_SLASH ++
    (if 0 ≤ pos then dec_digits 10 pos.toNat
     else 45 :: dec_digits (if pos.natAbs < 1000000000 then 9 else 10) pos.natAbs)

/-- Modelled from the spec: the path the service returns for a child of `queue/`
created with the sequence flag and given the sequence number `n`:
`<base>/queue/NNNNNNNNNN`, ten zero-padded decimal digits. -/
def created_path (n : Nat) : List Nat :=
  QUEUE_ZNODE_SLASH ++ dec_digits 10 n

/-- The literal part of a `sscanf` format matched against the input; the value is
the input that is left. -/
def match_literal : List Nat → List Nat → Option (List Nat)
  | [], input => some input
  | _ :: _, [] => none
  | c :: fmt, i :: input => if c = i then match_literal fmt input else none

/-- The test `isdigit`. -/
def is_digit (c : Nat) : Bool := decide (48 ≤ c) && decide (c ≤ 57)

/-- The test `isspace`. -/
def is_space (c : Nat) : Bool := decide (c = 32) || (decide (9 ≤ c) && decide (c ≤ 13))

/-- The value of the longest run of decimal digits at the start of the input,
continuing the value `acc`. -/
def scan_digits : List Nat → Nat → Nat
  | [], acc => acc
  | c :: cs, acc => if is_digit c then scan_digits cs (acc * 10 + (c - 48)) else acc

/-- A run of at least one decimal digit. -/
def scan_unsigned : List Nat → Option Int
  | [] => none
  | d :: rest => if is_digit d then some (scan_digits (d :: rest) 0 : Nat) else none

/-- The conversion `%d` of `sscanf`: white space is skipped, an optional sign and
at least one digit are read. -/
def sscanf_d (input : List Nat) : Option Int :=
  match input.dropWhile is_space with
  | [] => none
  | c :: rest =>
    if c = 45 then (scan_unsigned rest).map (fun v => -v)
    else if c = 43 then scan_unsigned rest
    else scan_unsigned (c :: rest)

/-- The call `sscanf(buf, QUEUE_ZNODE "/%" PRId32, &seq)`: the number read, or
`none` when nothing is assigned. -/
def sscanf_queue_seq (buf : List Nat) : Option Int :=
  (match_literal QUEUE_ZNODE_SLASH buf).bind sscanf_d

/-- The value a `uint32_t` takes when the integer `v` is stored in it. -/
def uint32_of_int (v : Int) : Nat := (v % 4294967296).toNat

/-- The conversion of a `uint32_t` to `int32_t`. -/
def int32_of_uint32 (u : Nat) : Int :=
  if u % 4294967296 < 2147483648 then ((u % 4294967296 : Nat) : Int)
  else ((u % 4294967296 : Nat) : Int) - 4294967296

/-- The value `queue_pos = seq` of the first `zk_queue_push`, `buf` being the path
the service returned and `junk` the content of the uninitialised local `seq`. -/
def first_push_cursor (buf : List Nat) (junk : Nat) : Int :=
  int32_of_uint32
    (match sscanf_queue_seq buf with
     | some v => uint32_of_int v
     | none => junk)

/-! ## Events as raw bytes -/

/-- The `struct zk_event` held in the memory `mem`: the first `H` bytes
(`H = offsetof(struct zk_event, buf)`) hold `type`, `sender`, `join_result` and
`buf_len`, which `decode` reads off them in whatever layout the compiler chose, and
the array `buf` follows. -/
def raw_view (H : Nat) (decode : List Nat → zk_event) (mem : List Nat) : zk_event :=
  { decode (mem.take H) with buf := mem.drop H }

/-- The bytes that `zk_queue_push` and `zk_queue_push_back` send for the event in
`mem`: the first `len = (char *)ev->buf - (char *)ev + ev->buf_len` bytes. -/
def raw_send (H : Nat) (decode : List Nat → zk_event) (mem : List Nat) : List Nat :=
  mem.take (H + (raw_view H decode mem).buf_len)

/-- The memory of the local `ev` of `zk_queue_pop` after
`zk_get_data(path, ev, &len)` with `len = sizeof(*ev)`: the data, at most `sizeof`
bytes of it, overwrite the start of the uninitialised memory `mem`. -/
def raw_receive (data mem : List Nat) : List Nat :=
  data.take mem.length ++ mem.drop (min data.length mem.length)

/-- A header layout of seven cells: type, joined, client id, node-id, the other
node fields, join result and buf_len. -/
def sample_decode (hdr : List Nat) : zk_event :=
  { type := hdr.getD 0 0
    sender :=
      { joined := decide (hdr.getD 1 0 ≠ 0), clientid := hdr.getD 2 0,
        node := { nid := hdr.getD 3 0, rest := hdr.getD 4 0 } }
    join_result :=
      if hdr.getD 5 0 = 0 then .CJ_RES_SUCCESS
      else if hdr.getD 5 0 = 1 then .CJ_RES_FAIL
      else if hdr.getD 5 0 = 2 then .CJ_RES_JOIN_LATER
      else .CJ_RES_MASTER_TRANSFER
    buf_len := hdr.getD 6 0
    buf := [] }

/-- The memory of a NOTIFY of node 2 with `buf_len = 1` and the payload "z", the
array `buf` having three cells. -/
def sample_mem : List Nat := [5, 1, 22, 2, 0, 0, 1, 122, 9, 9]

/-- A LEAVE of node A as `leave_event` fills it. -/
def leave_A : zk_event :=
  { type := EVENT_LEAVE, sender := { joined := false, clientid := 0, node := node_A },
    join_result := .CJ_RES_SUCCESS, buf_len := 0, buf := [] }

/-- The number of `zk_node_exists` calls that the wait loop of
`zk_handle_join_response` makes, started at poll number `i` with `retry` tries
left. -/
def wait_member_polls (absent : Nat → Bool) : Nat → Nat → Nat
  | 0, _ => 0
  | retry + 1, i => if absent i then wait_member_polls absent retry (i + 1) + 1 else 1

/-- The event JOIN_RESPONSE{SUCCESS} about B, with the payload "x". -/
def join_response_B : zk_event :=
  { type := EVENT_JOIN_RESPONSE, sender := member_B, join_result := .CJ_RES_SUCCESS,
    buf_len := 1, buf := [120] }

/-- The master A, alone in the cluster, after it popped the response about B. -/
def master_A_alone : Driver :=
  { zk_init (fun n => if n = 1 then some join_response_B else none) [member_A] with
    sd_nodes := [node_A]
    zk_node_root := zk_tree_add member_A .nil
    this_node := member_A
    queue_pos := 2
    first_push := false }

/-- Callbacks of a step during which `member/B` never appears. -/
def never_created : Callbacks :=
  { check_join := .CJ_RES_SUCCESS, block := false, member_absent := fun _ => true }

/-! ## Theorems -/

/-! ### The comparison of node-ids -/

theorem node_id_cmp_neg (a b : Nat) : node_id_cmp a b < 0 ↔ a < b := by
  unfold node_id_cmp
  split_ifs <;> omega

theorem node_id_cmp_pos (a b : Nat) : node_id_cmp a b > 0 ↔ b < a := by
  unfold node_id_cmp
  split_ifs with h1 h2
  · constructor
    · intro h; omega
    · intro h; omega
  · simp [h2]
  · simp [h2]

theorem node_id_cmp_zero (a b : Nat) : node_id_cmp a b = 0 ↔ a = b := by
  unfold node_id_cmp
  split_ifs with h1 h2
  · simp; omega
  · simp; omega
  · simp; omega

theorem node_eq_iff (a b : sd_node) : node_eq a b = true ↔ a.nid = b.nid := by
  simp [node_eq, node_id_cmp_zero]

/-! ### The member tree keeps its order -/

theorem mem_inorder_insert (new x : zk_node) (t : rb_node) :
    x ∈ rb_inorder (zk_tree_insert new t).2 → x = new ∨ x ∈ rb_inorder t := by
  induction t with
  | nil => simp [zk_tree_insert, rb_inorder]
  | node l e r ihl ihr =>
    unfold zk_tree_insert
    split_ifs with h1 h2
    · simp only [rb_inorder, List.mem_append, List.mem_cons]
      rintro (h | h | h)
      · rcases ihl h with h | h
        · exact Or.inl h
        · exact Or.inr (Or.inl h)
      · exact Or.inr (Or.inr (Or.inl h))
      · exact Or.inr (Or.inr (Or.inr h))
    · simp only [rb_inorder, List.mem_append, List.mem_cons]
      rintro (h | h | h)
      · exact Or.inr (Or.inl h)
      · exact Or.inr (Or.inr (Or.inl h))
      · rcases ihr h with h | h
        · exact Or.inl h
        · exact Or.inr (Or.inr (Or.inr h))
    · exact fun h => Or.inr h

theorem rb_sorted_insert (new : zk_node) (t : rb_node) (h : rb_sorted t) :
    rb_sorted (zk_tree_insert new t).2 := by
  induction t with
  | nil => simp [zk_tree_insert, rb_sorted, rb_inorder]
  | node l e r ihl ihr =>
    unfold rb_sorted at h
    simp only [rb_inorder, List.pairwise_append, List.pairwise_cons, List.mem_cons] at h
    obtain ⟨hl, ⟨her, hr⟩, hlr⟩ := h
    unfold zk_tree_insert
    split_ifs with h1 h2
    · rw [node_id_cmp_neg] at h1
      unfold rb_sorted
      simp only [rb_inorder, List.pairwise_append, List.pairwise_cons, List.mem_cons]
      refine ⟨ihl hl, ⟨her, hr⟩, ?_⟩
      intro a ha b hb
      rcases mem_inorder_insert new a l ha with rfl | ha
      · rcases hb with rfl | hb
        · exact h1
        · exact lt_trans h1 (her b hb)
      · exact hlr a ha b hb
    · rw [gt_iff_lt, ← gt_iff_lt, node_id_cmp_pos] at h2
      unfold rb_sorted
      simp only [rb_inorder, List.pairwise_append, List.pairwise_cons, List.mem_cons]
      refine ⟨hl, ⟨?_, ihr hr⟩, ?_⟩
      · intro b hb
        rcases mem_inorder_insert new b r hb with rfl | hb
        · exact h2
        · exact her b hb
      · intro a ha b hb
        rcases hb with rfl | hb
        · exact hlr a ha b (Or.inl rfl)
        · rcases mem_inorder_insert new b r hb with rfl | hb
          · exact lt_trans (hlr a ha e (Or.inl rfl)) h2
          · exact hlr a ha b (Or.inr hb)
    · unfold rb_sorted
      simp only [rb_inorder, List.pairwise_append, List.pairwise_cons, List.mem_cons]
      exact ⟨hl, ⟨her, hr⟩, hlr⟩

theorem rb_first_none (t : rb_node) (h : rb_first t = none) : t = .nil := by
  induction t with
  | nil => rfl
  | node l e r ihl _ =>
    cases l with
    | nil => simp [rb_first] at h
    | node ll le lr =>
      rw [rb_first] at h
      exact absurd (ihl h) (by simp)

theorem rb_first_cons (t : rb_node) (m : zk_node) (h : rb_first t = some m) :
    rb_inorder t = m :: rb_inorder (rb_erase_first t) := by
  induction t with
  | nil => simp [rb_first] at h
  | node l e r ihl _ =>
    cases l with
    | nil =>
      simp only [rb_first, Option.some.injEq] at h
      simp [rb_inorder, rb_erase_first, h]
    | node ll le lr =>
      rw [rb_first] at h
      rw [rb_erase_first, rb_inorder, ihl h, rb_inorder]
      simp

theorem rb_first_head (t : rb_node) : rb_first t = (rb_inorder t).head? := by
  cases h : rb_first t with
  | none => rw [rb_first_none t h]; rfl
  | some m => rw [rb_first_cons t m h]; rfl

theorem rb_erase_sublist (k : Nat) (t : rb_node) :
    (rb_inorder (rb_erase k t)).Sublist (rb_inorder t) := by
  induction t with
  | nil => simp [rb_erase, rb_inorder]
  | node l e r ihl ihr =>
    unfold rb_erase
    split_ifs with h1 h2
    · simp only [rb_inorder]
      exact List.Sublist.append ihl (List.Sublist.refl _)
    · simp only [rb_inorder]
      exact List.Sublist.append (List.Sublist.refl _) (List.Sublist.cons₂ e ihr)
    · cases hm : rb_first r with
      | none =>
        simp only [rb_inorder]
        exact List.sublist_append_left _ _
      | some m =>
        simp only [rb_inorder]
        rw [rb_first_cons r m hm]
        exact List.Sublist.append (List.Sublist.refl _)
          (List.Sublist.cons e (List.Sublist.refl _))

theorem rb_sorted_erase (k : Nat) (t : rb_node) (h : rb_sorted t) :
    rb_sorted (rb_erase k t) :=
  List.Pairwise.sublist (rb_erase_sublist k t) h

theorem rb_sorted_add_fold (zs : List zk_node) (t : rb_node) (h : rb_sorted t) :
    rb_sorted (zs.foldl (fun root znode => zk_tree_add znode root) t) := by
  induction zs generalizing t with
  | nil => exact h
  | cons z zs ih => exact ih _ (rb_sorted_insert z t h)

theorem rb_sorted_destroy_fold (ns : List sd_node) (t : rb_node) (h : rb_sorted t) :
    rb_sorted (ns.foldl
      (fun root n =>
        match zk_tree_search n.nid root with
        | some zk => zk_tree_del zk root
        | none => root) t) := by
  induction ns generalizing t with
  | nil => exact h
  | cons n ns ih =>
    apply ih
    show rb_sorted (match zk_tree_search n.nid t with
      | some zk => zk_tree_del zk t
      | none => t)
    cases zk_tree_search n.nid t with
    | none => exact h
    | some zk => exact rb_sorted_erase _ t h

/-! ### Which activities touch the leave ring and the member tree -/

theorem RingOk_of_same (N : Nat) (s s' : Driver) (h : same_ring s s') (hs : RingOk N s) :
    RingOk N s' := by
  obtain ⟨h1, h2, h3, h4, _⟩ := h
  unfold RingOk at *
  rw [h1, h2, h3, h4]
  exact hs

theorem TreeOk_of_same (s s' : Driver) (h : same_tree s s') (hs : TreeOk s) : TreeOk s' := by
  obtain ⟨h1, h2⟩ := h
  unfold TreeOk at *
  rw [h1, h2]
  exact hs

theorem DriverInv_of_same (N : Nat) (s s' : Driver) (hr : same_ring s s')
    (ht : same_tree s s') (hs : DriverInv N s) : DriverInv N s' :=
  ⟨RingOk_of_same N s s' hr hs.1, TreeOk_of_same s s' ht hs.2.1, by rw [hr.2.2.2.2]; exact hs.2.2⟩

theorem zk_queue_push_same (seq : Int) (ev : zk_event) (s : Driver) :
    same_ring s (zk_queue_push seq ev s) ∧ same_tree s (zk_queue_push seq ev s) := by
  unfold zk_queue_push zk_create_node_queue eventfd_write same_ring same_tree
  dsimp only
  split_ifs <;> simp

theorem add_event_same (junk : zk_event) (seq : Int) (type : Nat) (znode : zk_node)
    (buf : Option (List Nat)) (len : Nat) (s : Driver) :
    same_ring s (add_event junk seq type znode buf len s) ∧
    same_tree s (add_event junk seq type znode buf len s) :=
  zk_queue_push_same _ _ s

theorem zk_set_data_same (pos : Int) (ev : zk_event) (s s' : Driver)
    (h : zk_set_data pos ev s = .ok s') : same_ring s s' ∧ same_tree s s' := by
  unfold zk_set_data at h
  dsimp only at h
  split at h
  · cases h
  · cases h
    simp [same_ring, same_tree]

theorem zk_queue_push_back_same (ev : zk_event) (s s' : Driver)
    (h : zk_queue_push_back ev s = .ok s') : same_ring s s' ∧ same_tree s s' := by
  unfold zk_queue_push_back at h
  have := zk_set_data_same _ _ _ _ h
  simpa [same_ring, same_tree] using this

theorem zk_queue_pop_same_tree (N : Nat) (s : Driver) :
    same_tree s (zk_queue_pop N s).state := by
  unfold zk_queue_pop zk_queue_peek_next_notify eventfd_write same_tree
  dsimp only
  split_ifs <;> (try split) <;> (try split_ifs) <;> simp [PopResult.state]

theorem zk_queue_pop_called (N : Nat) (s : Driver) :
    (zk_queue_pop N s).state.called_by_zk_unblock = s.called_by_zk_unblock := by
  unfold zk_queue_pop zk_queue_peek_next_notify eventfd_write
  dsimp only
  split_ifs <;> (try split) <;> (try split_ifs) <;> simp [PopResult.state]

/-! ### What `zk_queue_pop` does -/

theorem zk_queue_pop_frame (N : Nat) (s : Driver) :
    (zk_queue_pop N s).state.queue = s.queue ∧
    (zk_queue_pop N s).state.member = s.member ∧
    (zk_queue_pop N s).state.zk_notify_blocked = s.zk_notify_blocked ∧
    (zk_queue_pop N s).state.trace = s.trace ∧
    (zk_queue_pop N s).state.this_node = s.this_node ∧
    (zk_queue_pop N s).state.first_push = s.first_push ∧
    (zk_queue_pop N s).state.zk_levents = s.zk_levents ∧
    (zk_queue_pop N s).state.zk_levent_tail = s.zk_levent_tail := by
  unfold zk_queue_pop zk_queue_peek_next_notify eventfd_write
  dsimp only
  split_ifs <;> (try split) <;> (try split_ifs) <;> simp [PopResult.state]

theorem zk_queue_pop_leave (N : Nat) (s : Driver) (hc : s.called_by_zk_unblock = false)
    (hn : s.nr_zk_levents ≠ 0) :
    zk_queue_pop N s = .got (s.zk_levents (s.zk_levent_head % N)) (zk_queue_pop N s).state ∧
    (zk_queue_pop N s).state.nr_zk_levents = s.nr_zk_levents - 1 ∧
    (zk_queue_pop N s).state.zk_levent_head = (s.zk_levent_head + 1) % UINT_RANGE ∧
    (zk_queue_pop N s).state.queue_pos
      = if dead_blocker_at_cursor N s then s.queue_pos + 1 else s.queue_pos := by
  unfold zk_queue_pop zk_queue_peek_next_notify eventfd_write dead_blocker_at_cursor zk_get_data
  simp only [hc, hn, Bool.not_false, ne_eq, not_false_eq_true, decide_True, Bool.and_self,
    if_true, PopResult.state]
  cases hq : s.queue s.queue_pos with
  | none => simp; split_ifs <;> simp
  | some ev =>
    dsimp only
    split_ifs <;> simp_all

theorem zk_queue_pop_no_leave (N : Nat) (s : Driver)
    (h : s.called_by_zk_unblock = true ∨ s.nr_zk_levents = 0) :
    same_ring s (zk_queue_pop N s).state := by
  have hcond : (!s.called_by_zk_unblock && decide (s.nr_zk_levents ≠ 0)) = false := by
    rcases h with h | h <;> simp [h]
  unfold zk_queue_pop zk_queue_peek_next_notify eventfd_write same_ring
  simp only [hcond, Bool.false_eq_true, if_false]
  split_ifs <;> (try split) <;> (try split_ifs) <;> simp [PopResult.state]

theorem zk_queue_pop_blocked (N : Nat) (s : Driver) (hc : s.called_by_zk_unblock = false)
    (hn : s.nr_zk_levents = 0) (hb : s.zk_notify_blocked = true) :
    zk_queue_pop N s = .fail s := by
  unfold zk_queue_pop
  simp [hc, hn, hb]

theorem zk_queue_pop_RingOk (N : Nat) (s : Driver) (hs : RingOk N s) :
    RingOk N (zk_queue_pop N s).state := by
  by_cases h : s.called_by_zk_unblock = true ∨ s.nr_zk_levents = 0
  · exact RingOk_of_same N s _ (zk_queue_pop_no_leave N s h) hs
  · have hc : s.called_by_zk_unblock = false := by
      cases hcb : s.called_by_zk_unblock
      · rfl
      · exact absurd (Or.inl hcb) h
    have hn : s.nr_zk_levents ≠ 0 := fun hn => h (Or.inr hn)
    obtain ⟨_, h2, h3, _⟩ := zk_queue_pop_leave N s hc hn
    obtain ⟨_, _, _, _, _, _, h7, h8⟩ := zk_queue_pop_frame N s
    obtain ⟨g1, g2, g4, g3⟩ := hs
    unfold RingOk
    rw [h2, h3, h7, h8]
    refine ⟨by omega, ?_, ?_, ?_⟩
    · rw [g2]; unfold UINT_RANGE; omega
    · unfold UINT_RANGE; omega
    · intro k hk
      have e : ((s.zk_levent_head + 1) % UINT_RANGE + k) % UINT_RANGE
          = (s.zk_levent_head + (k + 1)) % UINT_RANGE := by
        unfold UINT_RANGE; omega
      rw [e]
      exact g3 (k + 1) (by push_cast; omega)

theorem leave_event_RingOk (N : Nat) (znode : zk_node) (s : Driver) (hs : RingOk N s) :
    RingOk N (leave_event N znode s) := by
  obtain ⟨g1, g2, g4, g3⟩ := hs
  unfold RingOk leave_event eventfd_write
  dsimp only
  refine ⟨by omega, ?_, g4, ?_⟩
  · rw [g2]; unfold UINT_RANGE; omega
  · intro k hk
    split_ifs with hi
    · rfl
    · apply g3
      by_contra hk'
      have hkn : (k : Int) = s.nr_zk_levents := by omega
      apply hi
      rw [g2]
      have : s.nr_zk_levents.toNat = k := by omega
      rw [this]

theorem leave_event_same (N : Nat) (znode : zk_node) (s : Driver) :
    same_tree s (leave_event N znode s) ∧
    (leave_event N znode s).called_by_zk_unblock = s.called_by_zk_unblock := by
  simp [leave_event, eventfd_write, same_tree]

/-! ### The handlers keep the invariant -/

theorem same_ring_refl (s : Driver) : same_ring s s := ⟨rfl, rfl, rfl, rfl, rfl⟩

theorem same_tree_refl (s : Driver) : same_tree s s := ⟨rfl, rfl⟩

theorem zk_handle_join_request_same (cb : Callbacks) (ev : zk_event) (s s' : Driver)
    (h : zk_handle_join_request cb ev s = .ok s') : same_ring s s' ∧ same_tree s s' := by
  unfold zk_handle_join_request at h
  split_ifs at h with hm
  · cases h
    simp [same_ring, same_tree]
  · dsimp only at h
    split at h
    · rename_i s2 hpb
      have := zk_queue_push_back_same _ _ _ hpb
      split_ifs at h
      cases h
      simpa [same_ring, same_tree] using this
    · rename_i o hne
      exact absurd h (hne s')

theorem zk_handle_block_same (cb : Callbacks) (ev : zk_event) (s s' : Driver)
    (h : zk_handle_block cb ev s = .ok s') : same_ring s s' ∧ same_tree s s' := by
  unfold zk_handle_block at h
  dsimp only at h
  split_ifs at h <;> cases h <;> simp [same_ring, same_tree]

theorem zk_handle_notify_same (cb : Callbacks) (ev : zk_event) (s s' : Driver)
    (h : zk_handle_notify cb ev s = .ok s') : same_ring s s' ∧ same_tree s s' := by
  unfold zk_handle_notify at h
  cases h
  simp [same_ring, same_tree]

theorem zk_handle_leave_inv (cb : Callbacks) (ev : zk_event) (s s' : Driver)
    (h : zk_handle_leave cb ev s = .ok s') (ht : TreeOk s) : same_ring s s' ∧ TreeOk s' := by
  unfold zk_handle_leave at h
  split at h
  · cases h
    exact ⟨same_ring_refl s, ht⟩
  · cases h
    refine ⟨by simp [same_ring, build_node_list], ?_⟩
    simp only [TreeOk, build_node_list, and_true]
    exact rb_sorted_erase _ _ ht.1

theorem zk_member_init_inv (s : Driver) (ht : rb_sorted s.zk_node_root) :
    same_ring s (zk_member_init s) ∧ rb_sorted (zk_member_init s).zk_node_root := by
  unfold zk_member_init
  split_ifs
  · exact ⟨same_ring_refl s, ht⟩
  · exact ⟨by simp [same_ring], rb_sorted_add_fold _ _ ht⟩

theorem zk_tree_destroy_inv (s : Driver) (ht : rb_sorted s.zk_node_root) :
    same_ring s (zk_tree_destroy s) ∧ rb_sorted (zk_tree_destroy s).zk_node_root :=
  ⟨by simp [same_ring, zk_tree_destroy], rb_sorted_destroy_fold _ _ ht⟩

theorem same_ring_trans (a b c : Driver) (h1 : same_ring a b) (h2 : same_ring b c) :
    same_ring a c := by
  obtain ⟨a1, a2, a3, a4, a5⟩ := h1
  obtain ⟨b1, b2, b3, b4, b5⟩ := h2
  exact ⟨b1.trans a1, b2.trans a2, b3.trans a3, b4.trans a4, b5.trans a5⟩

theorem zk_create_node_member_same (data : zk_node) (s s' : Driver)
    (h : zk_create_node_member data s = .ok s') : same_ring s s' ∧ same_tree s s' := by
  unfold zk_create_node_member at h
  dsimp only at h
  split_ifs at h
  cases h
  simp [same_ring, same_tree]

theorem zk_handle_join_response_tail_inv (ev : zk_event) (s s' : Driver)
    (h : zk_handle_join_response_tail ev s = .ok s') (ht : rb_sorted s.zk_node_root) :
    same_ring s s' ∧ TreeOk s' := by
  unfold zk_handle_join_response_tail at h
  dsimp only at h
  have h1 : same_ring s (if node_eq ev.sender.node s.this_node.node then zk_member_init s else s)
      ∧ rb_sorted
        (if node_eq ev.sender.node s.this_node.node then zk_member_init s else s).zk_node_root := by
    split_ifs
    · exact zk_member_init_inv s ht
    · exact ⟨same_ring_refl s, ht⟩
  generalize (if node_eq ev.sender.node s.this_node.node then zk_member_init s else s) = s1
    at h h1
  have h2 : same_ring s1
      (if ev.join_result = .CJ_RES_MASTER_TRANSFER then zk_tree_destroy s1 else s1)
      ∧ rb_sorted
        (if ev.join_result = .CJ_RES_MASTER_TRANSFER then zk_tree_destroy s1
          else s1).zk_node_root := by
    split_ifs
    · exact zk_tree_destroy_inv s1 h1.2
    · exact ⟨same_ring_refl s1, h1.2⟩
  generalize (if ev.join_result = .CJ_RES_MASTER_TRANSFER then zk_tree_destroy s1 else s1) = s2
    at h h2
  have h3s : rb_sorted (zk_tree_add ev.sender s2.zk_node_root) := rb_sorted_insert _ _ h2.2
  have h12 := same_ring_trans _ _ _ h1.1 h2.1
  split at h
  · rename_i s4 ho4
    cases h
    have hs4 : same_ring s2 s4 ∧ s4.zk_node_root = zk_tree_add ev.sender s2.zk_node_root := by
      split at ho4
      · cases ho4
        simp [same_ring]
      · split_ifs at ho4
        · have := zk_create_node_member_same _ _ _ ho4
          refine ⟨?_, ?_⟩
          · simpa [same_ring] using this.1
          · simpa [same_tree] using this.2.1
        · cases ho4
          simp [same_ring]
    refine ⟨?_, ?_⟩
    · have := same_ring_trans _ _ _ h12 hs4.1
      simpa [same_ring, build_node_list] using this
    · simp only [TreeOk, build_node_list, and_true]
      rw [hs4.2]
      exact h3s
  · rename_i o hne
    exact absurd h (hne s')

theorem zk_handle_join_response_inv (cb : Callbacks) (ev : zk_event) (s s' : Driver)
    (h : zk_handle_join_response cb ev s = .ok s') (ht : TreeOk s) :
    same_ring s s' ∧ TreeOk s' := by
  unfold zk_handle_join_response at h
  split_ifs at h
  · cases h
    exact ⟨same_ring_refl s, ht⟩
  · exact zk_handle_join_response_tail_inv ev s s' h ht.1
  · exact zk_handle_join_response_tail_inv ev s s' h ht.1

theorem zk_event_handlers_inv (cb : Callbacks) (ev : zk_event) (s s' : Driver)
    (handler : Callbacks → zk_event → Driver → Outcome)
    (hh : zk_event_handlers ev.type = some handler) (h : handler cb ev s = .ok s')
    (ht : TreeOk s) : same_ring s s' ∧ TreeOk s' := by
  unfold zk_event_handlers at hh
  split at hh <;> cases hh
  · have := zk_handle_join_request_same cb ev s s' h
    exact ⟨this.1, TreeOk_of_same s s' this.2 ht⟩
  · exact zk_handle_join_response_inv cb ev s s' h ht
  · exact zk_handle_leave_inv cb ev s s' h ht
  · have := zk_handle_block_same cb ev s s' h
    exact ⟨this.1, TreeOk_of_same s s' this.2 ht⟩
  · have := zk_handle_notify_same cb ev s s' h
    exact ⟨this.1, TreeOk_of_same s s' this.2 ht⟩

/-! ### The invariant holds in every reachable state -/

theorem zk_queue_pop_inv (N : Nat) (s : Driver) (hs : DriverInv N s) :
    DriverInv N (zk_queue_pop N s).state :=
  ⟨zk_queue_pop_RingOk N s hs.1, TreeOk_of_same s _ (zk_queue_pop_same_tree N s) hs.2.1,
    by rw [zk_queue_pop_called]; exact hs.2.2⟩

theorem DriverInv_efd (N : Nat) (s : Driver) (n : Nat) (hs : DriverInv N s) :
    DriverInv N { s with efd := n } :=
  DriverInv_of_same N s _ ⟨rfl, rfl, rfl, rfl, rfl⟩ ⟨rfl, rfl⟩ hs

theorem zk_event_handler_inv (N : Nat) (events : Nat) (cb : Callbacks) (s s' : Driver)
    (h : zk_event_handler N events cb s = .ok s') (hs : DriverInv N s) : DriverInv N s' := by
  unfold zk_event_handler at h
  split_ifs at h
  unfold eventfd_read at h
  split_ifs at h
  · cases h
    exact hs
  · dsimp only at h
    have hp := zk_queue_pop_inv N { s with efd := 0 } (DriverInv_efd N s 0 hs)
    cases hr : zk_queue_pop N { s with efd := 0 } with
    | fail s2 =>
      rw [hr] at h hp
      cases h
      exact hp
    | panicked s2 =>
      rw [hr] at h
      cases h
    | got ev s2 =>
      rw [hr] at h hp
      simp only [PopResult.state] at hp
      dsimp only at h
      split_ifs at h
      · split at h
        · rename_i handler hh
          have := zk_event_handlers_inv cb ev s2 s' handler hh h hp.2.1
          exact ⟨RingOk_of_same N s2 s' this.1 hp.1, this.2, by rw [this.1.2.2.2.2]; exact hp.2.2⟩
        · cases h
          exact hp
      · cases h
        exact hp

theorem zk_unblock_inv (N : Nat) (msg : Option (List Nat)) (len : Nat) (s s' : Driver)
    (h : zk_unblock N msg len s = .ok s') (hs : DriverInv N s) : DriverInv N s' := by
  unfold zk_unblock at h
  have hring := zk_queue_pop_no_leave N { s with called_by_zk_unblock := true } (Or.inl rfl)
  have htree := zk_queue_pop_same_tree N { s with called_by_zk_unblock := true }
  cases hr : zk_queue_pop N { s with called_by_zk_unblock := true } with
  | fail s2 => rw [hr] at h; cases h
  | panicked s2 => rw [hr] at h; cases h
  | got ev s2 =>
    rw [hr] at h hring htree
    simp only [PopResult.state] at hring htree
    dsimp only at h
    split at h
    · rename_i s3 hpb
      cases h
      have := zk_queue_push_back_same _ _ _ hpb
      obtain ⟨⟨a1, a2, a3, a4, a5⟩, b1, b2⟩ := this
      obtain ⟨c1, c2, c3, c4, _⟩ := hring
      obtain ⟨d1, d2⟩ := htree
      obtain ⟨hR, hT, _⟩ := hs
      refine ⟨?_, ?_, ?_⟩
      · unfold RingOk at *
        simp only [eventfd_write]
        rw [a1, a2, a3, a4]
        simp only [c1, c2, c3, c4]
        exact hR
      · unfold TreeOk at *
        simp only [eventfd_write]
        rw [b1, b2]
        simp only [d1, d2]
        exact hT
      · simp only [eventfd_write]
        rw [a5]
    · rename_i o hne
      exact absurd h (hne s')

theorem zk_watcher_inv (N : Nat) (type : Int) (path : ZPath) (cid : Nat) (junk : zk_node)
    (s : Driver) (hs : DriverInv N s) : DriverInv N (zk_watcher N type path cid junk s) := by
  unfold zk_watcher
  split_ifs with h1 h2 h3 h4
  · exact hs
  · have hs1 : DriverInv N { s with this_node := { s.this_node with clientid := cid } } :=
      DriverInv_of_same N s _ ⟨rfl, rfl, rfl, rfl, rfl⟩ ⟨rfl, rfl⟩ hs
    dsimp only
    split
    · rename_i p
      have := leave_event_same N { junk with node := str_to_node p junk.node }
        { s with this_node := { s.this_node with clientid := cid } }
      exact ⟨leave_event_RingOk N _ _ hs1.1, TreeOk_of_same _ _ this.1 hs1.2.1,
        by rw [this.2]; exact hs1.2.2⟩
    · exact hs1
  · exact DriverInv_of_same N s _ ⟨rfl, rfl, rfl, rfl, rfl⟩ ⟨rfl, rfl⟩ hs
  · dsimp only
    split
    · rename_i p
      have := leave_event_same N { junk with node := str_to_node p junk.node } s
      exact ⟨leave_event_RingOk N _ _ hs.1, TreeOk_of_same _ _ this.1 hs.2.1,
        by rw [this.2]; exact hs.2.2⟩
    · exact hs
  · exact DriverInv_of_same N s _ ⟨rfl, rfl, rfl, rfl, rfl⟩ ⟨rfl, rfl⟩ hs

theorem zk_init_inv (N : Nat) (queue : Int → Option zk_event) (member : List zk_node) :
    DriverInv N (zk_init queue member) := by
  refine ⟨⟨le_refl _, ?_, ?_, ?_⟩, ⟨?_, rfl⟩, rfl⟩
  · simp [zk_init, UINT_RANGE]
  · simp [zk_init, UINT_RANGE]
  · intro k hk
    simp [zk_init] at hk
    omega
  · simp [rb_sorted, zk_init, rb_inorder]

theorem step_inv (N : Nat) (a : Action) (s s' : Driver) (h : step N a s = .ok s')
    (hs : DriverInv N s) : DriverInv N s' := by
  cases a with
  | join junk seq cid myself payload len =>
    simp only [step, zk_join] at h
    split_ifs at h
    cases h
    have := add_event_same junk seq EVENT_JOIN_REQUEST
      { joined := false, clientid := cid, node := myself } payload len
      { s with this_node := { joined := false, clientid := cid, node := myself } }
    exact DriverInv_of_same N _ _ this.1 this.2
      (DriverInv_of_same N s _ ⟨rfl, rfl, rfl, rfl, rfl⟩ ⟨rfl, rfl⟩ hs)
  | leave =>
    simp only [step, Outcome.ok.injEq] at h
    subst h
    exact DriverInv_of_same N s _ ⟨rfl, rfl, rfl, rfl, rfl⟩ ⟨rfl, rfl⟩ hs
  | notify junk seq msg len =>
    simp only [step, Outcome.ok.injEq] at h
    subst h
    have := add_event_same junk seq EVENT_NOTIFY s.this_node msg len s
    exact DriverInv_of_same N _ _ this.1 this.2 hs
  | block junk seq =>
    simp only [step, Outcome.ok.injEq] at h
    subst h
    have := add_event_same junk seq EVENT_BLOCK s.this_node none 0 s
    exact DriverInv_of_same N _ _ this.1 this.2 hs
  | unblock msg len => exact zk_unblock_inv N msg len s s' h hs
  | watcher type path cid junk =>
    simp only [step, Outcome.ok.injEq] at h
    subst h
    exact zk_watcher_inv N type path cid junk s hs
  | dispatch events cb => exact zk_event_handler_inv N events cb s s' h hs
  | service queue member =>
    simp only [step, Outcome.ok.injEq] at h
    subst h
    exact DriverInv_of_same N s _ ⟨rfl, rfl, rfl, rfl, rfl⟩ ⟨rfl, rfl⟩ hs

theorem Reachable_inv (N : Nat) (s : Driver) (h : Reachable N s) : DriverInv N s := by
  induction h with
  | init queue member => exact zk_init_inv N queue member
  | step a s s' _ hstep ih => exact step_inv N a s s' hstep ih

/-! ### C1: while blocked, only leaves are delivered -/

theorem RingOk_head_type (N : Nat) (s : Driver) (hs : RingOk N s) (hn : s.nr_zk_levents ≠ 0) :
    (s.zk_levents (s.zk_levent_head % N)).type = EVENT_LEAVE := by
  obtain ⟨g1, _, g4, g3⟩ := hs
  have := g3 0 (by push_cast; omega)
  rwa [Nat.add_zero, Nat.mod_eq_of_lt g4] at this

theorem zk_handle_leave_trace (cb : Callbacks) (ev : zk_event) (s : Driver) :
    extends_by_leave_calls s (zk_handle_leave cb ev s).state := by
  unfold zk_handle_leave
  split
  · exact ⟨[], by simp [Outcome.state], by simp [only_leave_calls]⟩
  · exact ⟨[Obs.sd_leave_handler ev.sender.node _], rfl, by simp [only_leave_calls]⟩

/-- C1: in every reachable driver state (a state between two activities, so the
pop is not the one made inside `zk_unblock`) in which `zk_notify_blocked` is set,
`zk_queue_pop` returns -1 and changes nothing, the cursor included, when no leave
is pending; whenever it returns 0 the event returned has type `EVENT_LEAVE`; and a
dispatcher step, however it ends, adds to the trace nothing but calls of
`sd_leave_handler`. -/
theorem C1_blocked_only_leave (N : Nat) (s : Driver) (hr : Reachable N s)
    (hb : s.zk_notify_blocked = true) :
    s.called_by_zk_unblock = false ∧
    (s.nr_zk_levents = 0 →
      zk_queue_pop N s = .fail s ∧ (zk_queue_pop N s).rc = some (-1) ∧
      (zk_queue_pop N s).state.queue_pos = s.queue_pos) ∧
    (∀ ev s', zk_queue_pop N s = .got ev s' → ev.type = EVENT_LEAVE) ∧
    (∀ events cb,
      extends_by_leave_calls s (zk_event_handler N events cb s).state) := by
  have hinv := Reachable_inv N s hr
  have hc := hinv.2.2
  have hnil : ∀ s' : Driver, s'.trace = s.trace → extends_by_leave_calls s s' :=
    fun s' h => ⟨[], by simp [h], by simp [only_leave_calls]⟩
  refine ⟨hc, ?_, ?_, ?_⟩
  · intro hn
    have := zk_queue_pop_blocked N s hc hn hb
    rw [this]
    exact ⟨rfl, rfl, rfl⟩
  · intro ev s' hpop
    by_cases hn : s.nr_zk_levents = 0
    · rw [zk_queue_pop_blocked N s hc hn hb] at hpop
      cases hpop
    · have := (zk_queue_pop_leave N s hc hn).1
      rw [hpop] at this
      cases this
      exact RingOk_head_type N s hinv.1 hn
  · intro events cb
    unfold zk_event_handler
    split_ifs
    · exact hnil _ rfl
    · unfold eventfd_read
      split_ifs
      · exact hnil _ rfl
      · dsimp only
        have hinv0 := DriverInv_efd N s 0 hinv
        by_cases hn : s.nr_zk_levents = 0
        · rw [zk_queue_pop_blocked N { s with efd := 0 } hc hn hb]
          exact hnil _ rfl
        · have hl := (zk_queue_pop_leave N { s with efd := 0 } hc hn).1
          have hty := RingOk_head_type N { s with efd := 0 } hinv0.1 hn
          have hfr := (zk_queue_pop_frame N { s with efd := 0 }).2.2.2.1
          rw [hl]
          dsimp only
          rw [hty]
          simp only [EVENT_LEAVE, zk_max_event_handlers, zk_event_handlers]
          norm_num
          obtain ⟨new, h1, h2⟩ := zk_handle_leave_trace cb
            (s.zk_levents (s.zk_levent_head % N)) (zk_queue_pop N { s with efd := 0 }).state
          exact ⟨new, by rw [h1, hfr], h2⟩

theorem sample_woken_reachable : Reachable 1024 sample_woken :=
  Reachable.step
    (.watcher ZOO_CREATED_EVENT (.queue 0) 0
      { joined := false, clientid := 0, node := { nid := 0, rest := 0 } })
    _ _ (Reachable.init _ _) rfl

theorem sample_blocked_reachable : Reachable 1024 sample_blocked :=
  Reachable.step (.dispatch 0 sample_cb) sample_woken sample_blocked sample_woken_reachable rfl

/-- Witness of C1: the reachable state `sample_blocked` has the block flag set, and
there `zk_queue_pop` returns -1. -/
theorem C1_blocked_only_leave_witness :
    Reachable 1024 sample_blocked ∧ sample_blocked.zk_notify_blocked = true ∧
    (zk_queue_pop 1024 sample_blocked).rc = some (-1) :=
  ⟨sample_blocked_reachable, rfl,
    ((C1_blocked_only_leave 1024 sample_blocked sample_blocked_reachable rfl).2.1 rfl).2.1⟩

/-! ### C2: a BLOCK at the cursor stalls the queue -/

theorem zk_handle_leave_frame (cb : Callbacks) (ev : zk_event) (s : Driver) :
    ∃ s', zk_handle_leave cb ev s = .ok s' ∧ s'.queue = s.queue ∧
      s'.queue_pos = s.queue_pos ∧ s'.zk_notify_blocked = s.zk_notify_blocked ∧
      s'.efd = s.efd ∧ s'.member = s.member ∧
      (s'.trace = s.trace ∨
        ∃ nodes, s'.trace = s.trace ++ [Obs.sd_leave_handler ev.sender.node nodes]) := by
  unfold zk_handle_leave
  split
  · exact ⟨s, rfl, rfl, rfl, rfl, rfl, rfl, Or.inl rfl⟩
  · exact ⟨_, rfl, rfl, rfl, rfl, rfl, rfl, Or.inr ⟨_, rfl⟩⟩

theorem zk_queue_pop_head (N : Nat) (s : Driver) (ev : zk_event)
    (hc : s.called_by_zk_unblock = true ∨
      (s.nr_zk_levents = 0 ∧ s.zk_notify_blocked = false))
    (hq : s.queue s.queue_pos = some ev) :
    zk_queue_pop N s =
      .got ev (if is_blocking_event ev then { s with queue_pos := s.queue_pos + 1 }
        else zk_queue_peek_next_notify (s.queue_pos + 1)
          { s with queue_pos := s.queue_pos + 1 }) := by
  unfold zk_queue_pop zk_queue_empty zk_node_exists_queue zk_get_data
  rcases hc with hc | ⟨hn, hb⟩
  · simp only [hc, hq]
    simp
    split_ifs <;> rfl
  · simp only [hn, hb, hq]
    simp
    split_ifs <;> rfl

theorem zk_watcher_frame (N : Nat) (type : Int) (path : ZPath) (cid : Nat) (junk : zk_node)
    (s : Driver) :
    (zk_watcher N type path cid junk s).queue = s.queue ∧
    (zk_watcher N type path cid junk s).queue_pos = s.queue_pos ∧
    (zk_watcher N type path cid junk s).trace = s.trace ∧
    (zk_watcher N type path cid junk s).member = s.member ∧
    (zk_watcher N type path cid junk s).zk_notify_blocked = s.zk_notify_blocked := by
  unfold zk_watcher leave_event eventfd_write
  dsimp only
  split_ifs <;> (try split) <;> simp

theorem stalled_calls_nil (B : sd_node) : stalled_calls B [] := by
  simp [stalled_calls]

theorem stalled_calls_append (B : sd_node) (l1 l2 : List Obs) (h1 : stalled_calls B l1)
    (h2 : stalled_calls B l2) : stalled_calls B (l1 ++ l2) := by
  intro o ho
  rcases List.mem_append.mp ho with h | h
  · exact h1 o h
  · exact h2 o h

theorem stalled_dispatch (N : Nat) (k : Int) (ev : zk_event) (events : Nat) (cb : Callbacks)
    (s : Driver) (hinv : DriverInv N s) (hk : s.queue_pos = k) (hq : s.queue k = some ev)
    (hty : ev.type = EVENT_BLOCK)
    (hact : s.nr_zk_levents ≠ 0 →
      node_eq ev.sender.node (s.zk_levents (s.zk_levent_head % N)).sender.node = false) :
    (zk_event_handler N events cb s).state.queue_pos = k ∧
    (zk_event_handler N events cb s).state.queue k = some ev ∧
    ∃ new, (zk_event_handler N events cb s).state.trace = s.trace ++ new ∧
      stalled_calls ev.sender.node new := by
  have hnil : ∀ s' : Driver, s'.queue_pos = k → s'.queue k = some ev → s'.trace = s.trace →
      s'.queue_pos = k ∧ s'.queue k = some ev ∧
      ∃ new, s'.trace = s.trace ++ new ∧ stalled_calls ev.sender.node new :=
    fun s' h1 h2 h3 => ⟨h1, h2, [], by simp [h3], stalled_calls_nil _⟩
  have hc := hinv.2.2
  unfold zk_event_handler
  split_ifs
  · exact hnil _ hk hq rfl
  · unfold eventfd_read
    split_ifs
    · exact hnil _ hk hq rfl
    · dsimp only
      have hinv0 := DriverInv_efd N s 0 hinv
      by_cases hn : s.nr_zk_levents = 0
      · by_cases hb1 : s.zk_notify_blocked = true
        swap
        · have hb : s.zk_notify_blocked = false := by simpa using hb1
          have hq0 : ({ s with efd := 0 } : Driver).queue ({ s with efd := 0 } : Driver).queue_pos
              = some ev := by
            show s.queue s.queue_pos = some ev
            rw [hk]; exact hq
          have hblk : is_blocking_event ev = true := by simp [is_blocking_event, hty]
          rw [zk_queue_pop_head N { s with efd := 0 } ev (Or.inr ⟨hn, hb⟩) hq0]
          simp only [hblk, if_true]
          rw [hty]
          simp only [EVENT_BLOCK, zk_max_event_handlers, zk_event_handlers]
          norm_num
          unfold zk_handle_block
          dsimp only
          split_ifs with h1
          · refine ⟨by simp [Outcome.state, hk], by simpa [Outcome.state] using hq,
              [Obs.sd_block_handler ev.sender.node], by simp [Outcome.state], ?_⟩
            intro o ho
            simp only [List.mem_singleton] at ho
            exact Or.inl ho
          · refine ⟨by simp [Outcome.state, hk], by simpa [Outcome.state] using hq,
              [Obs.sd_block_handler ev.sender.node], by simp [Outcome.state], ?_⟩
            intro o ho
            simp only [List.mem_singleton] at ho
            exact Or.inl ho
        · rw [zk_queue_pop_blocked N { s with efd := 0 } hc hn hb1]
          exact hnil _ hk hq rfl
      · obtain ⟨hl, _, _, hpos⟩ := zk_queue_pop_leave N { s with efd := 0 } hc hn
        have hty3 := RingOk_head_type N { s with efd := 0 } hinv0.1 hn
        obtain ⟨hfq, _, _, hft, _⟩ := zk_queue_pop_frame N { s with efd := 0 }
        have hdead : dead_blocker_at_cursor N { s with efd := 0 } = false := by
          unfold dead_blocker_at_cursor zk_get_data
          show (match s.queue s.queue_pos with
            | some ev =>
              node_eq ev.sender.node (s.zk_levents (s.zk_levent_head % N)).sender.node &&
                is_blocking_event ev
            | none => false) = false
          rw [hk, hq]
          simp [hact hn]
        rw [hdead] at hpos
        rw [hl]
        dsimp only
        rw [hty3]
        simp only [EVENT_LEAVE, zk_max_event_handlers, zk_event_handlers]
        norm_num
        obtain ⟨s', he, hq', hp', _, _, _, htr⟩ := zk_handle_leave_frame cb
          (s.zk_levents (s.zk_levent_head % N)) (zk_queue_pop N { s with efd := 0 }).state
        rw [he]
        simp only [Outcome.state]
        refine ⟨?_, ?_, ?_⟩
        · rw [hp']
          simpa [hk] using hpos
        · rw [hq', hfq]; exact hq
        · rcases htr with htr | ⟨nodes, htr⟩
          · exact ⟨[], by rw [htr, hft]; simp, stalled_calls_nil _⟩
          · refine ⟨[Obs.sd_leave_handler _ nodes], by rw [htr, hft], ?_⟩
            intro o ho
            simp only [List.mem_singleton] at ho
            exact Or.inr ⟨_, _, ho, hact hn⟩

theorem stalled_step (N : Nat) (k : Int) (ev : zk_event) (a : Action) (s : Driver)
    (hinv : DriverInv N s) (hk : s.queue_pos = k) (hq : s.queue k = some ev)
    (hty : ev.type = EVENT_BLOCK) (hact : stalled_act_ok N k ev.sender.node a s) :
    (step N a s).state.queue_pos = k ∧ (step N a s).state.queue k = some ev ∧
    ∃ new, (step N a s).state.trace = s.trace ++ new ∧ stalled_calls ev.sender.node new := by
  cases a with
  | dispatch events cb => exact stalled_dispatch N k ev events cb s hinv hk hq hty hact
  | watcher type path cid junk =>
    obtain ⟨h1, h2, h3, _⟩ := zk_watcher_frame N type path cid junk s
    simp only [step, Outcome.state]
    exact ⟨by rw [h2, hk], by rw [h1, hq], [], by rw [h3]; simp, stalled_calls_nil _⟩
  | service queue member =>
    simp only [step, Outcome.state]
    simp only [stalled_act_ok] at hact
    exact ⟨hk, by rw [hact, hq], [], by simp, stalled_calls_nil _⟩
  | join junk seq cid myself payload len => exact absurd hact (by simp [stalled_act_ok])
  | leave => exact absurd hact (by simp [stalled_act_ok])
  | notify junk seq msg len => exact absurd hact (by simp [stalled_act_ok])
  | block junk seq => exact absurd hact (by simp [stalled_act_ok])
  | unblock msg len => exact absurd hact (by simp [stalled_act_ok])

theorem stalled_run (N : Nat) (k : Int) (ev : zk_event) (hty : ev.type = EVENT_BLOCK)
    (acts : List Action) : ∀ s : Driver, DriverInv N s → s.queue_pos = k →
    s.queue k = some ev → stalled_run_ok N k ev.sender.node acts s →
    (run N acts s).state.queue_pos = k ∧ (run N acts s).state.queue k = some ev ∧
    ∃ new, (run N acts s).state.trace = s.trace ++ new ∧
      stalled_calls ev.sender.node new := by
  induction acts with
  | nil =>
    intro s _ hk hq _
    exact ⟨hk, hq, [], by simp [run, Outcome.state], stalled_calls_nil _⟩
  | cons a rest ih =>
    intro s hinv hk hq hrun
    obtain ⟨hact, hrest⟩ := hrun
    obtain ⟨h1, h2, new1, h3, h4⟩ := stalled_step N k ev a s hinv hk hq hty hact
    unfold run
    cases ho : step N a s with
    | ok s' =>
      rw [ho] at h1 h2 h3
      simp only [Outcome.state] at h1 h2 h3
      obtain ⟨g1, g2, new2, g3, g4⟩ := ih s' (step_inv N a s s' ho hinv) h1 h2 (hrest s' ho)
      exact ⟨g1, g2, new1 ++ new2, by rw [g3, h3, List.append_assoc],
        stalled_calls_append _ _ _ h4 g4⟩
    | exited s' =>
      rw [ho] at h1 h2 h3
      exact ⟨h1, h2, new1, h3, h4⟩
    | panicked s' =>
      rw [ho] at h1 h2 h3
      exact ⟨h1, h2, new1, h3, h4⟩

theorem stalled_run_ok_initial (N : Nat) (k : Int) (B : sd_node) (pre post : List Action) :
    ∀ s : Driver, stalled_run_ok N k B (pre ++ post) s → stalled_run_ok N k B pre s := by
  induction pre with
  | nil => intro s _; trivial
  | cons a rest ih =>
    intro s h
    exact ⟨h.1, fun s' hs' => ih s' (h.2 s' hs')⟩

/-- C2: let `s` be a reachable state whose cursor is `k` and whose znode
`queue/<k>` holds a BLOCK `ev`. Along every run of dispatcher steps (with any
callback answers, so whatever `sd_block_handler` returns), watcher invocations and
changes of the service that leave `queue/<k>` alone, in which no dispatcher step
delivers a leave of the sender of `ev`, after every prefix `pre` of the run the
cursor is `k`, the znode is unchanged, and the trace has grown by calls of
`sd_block_handler` for the sender and of `sd_leave_handler` for other nodes only;
no event stored behind `k` is handed to a handler. -/
theorem C2_block_stalls_queue (N : Nat) (k : Int) (ev : zk_event) (s : Driver)
    (pre post : List Action) (hr : Reachable N s) (hk : s.queue_pos = k)
    (hq : s.queue k = some ev) (hty : ev.type = EVENT_BLOCK)
    (hrun : stalled_run_ok N k ev.sender.node (pre ++ post) s) :
    (run N pre s).state.queue_pos = k ∧ (run N pre s).state.queue k = some ev ∧
    ∃ new, (run N pre s).state.trace = s.trace ++ new ∧
      stalled_calls ev.sender.node new :=
  stalled_run N k ev hty pre s (Reachable_inv N s hr) hk hq
    (stalled_run_ok_initial N k ev.sender.node pre post s hrun)

theorem sample_stalled_run :
    stalled_run_ok 1024 0 sample_block.sender.node
      ([.dispatch 0 sample_cb, .dispatch 0 sample_cb] ++ []) sample_woken := by
  refine ⟨fun h => absurd rfl h, fun s1 h1 => ⟨?_, fun s2 _ => trivial⟩⟩
  have e : step 1024 (.dispatch 0 sample_cb) sample_woken = .ok sample_blocked := rfl
  rw [e] at h1
  cases h1
  exact fun h => absurd rfl h

/-- Witness of C2: two dispatcher steps from `sample_woken`, whose cursor 0 is at
`sample_block`, leave the cursor at 0. -/
theorem C2_block_stalls_queue_witness :
    Reachable 1024 sample_woken ∧ sample_woken.queue 0 = some sample_block ∧
    (run 1024 [.dispatch 0 sample_cb, .dispatch 0 sample_cb] sample_woken).state.queue_pos = 0 :=
  ⟨sample_woken_reachable, rfl,
    (C2_block_stalls_queue 1024 0 sample_block sample_woken
      [.dispatch 0 sample_cb, .dispatch 0 sample_cb] [] sample_woken_reachable rfl rfl rfl
      sample_stalled_run).1⟩

/-! ### C3: `zk_unblock` rewrites the head in place -/

theorem memcpy_take (dst src : List Nat) (n : Nat) (h : src.length = n) :
    (memcpy dst src n).take n = src := by
  unfold memcpy
  rw [List.take_of_length_le (le_of_eq h), List.take_left' h]

/-- C3: when the znode at the cursor `k` exists and holds `ev0`, `zk_unblock(msg,
len)` (with `msg` either NULL and `len = 0`, or `len` bytes) returns, and afterwards
`queue/<k>` holds the event of type `EVENT_NOTIFY` with the sender (and join
result) of `ev0`, `buf_len = len` and payload `msg`; no other znode changed, the
cursor is `k`, `zk_notify_blocked` and `called_by_zk_unblock` are false, the leave
ring is untouched, the eventfd counter grew, and the one mutating call made to the
service was the `zoo_set` on `queue/<k>`. -/
theorem C3_unblock_rewrites_head (N : Nat) (msg : Option (List Nat)) (len : Nat) (s : Driver)
    (ev0 : zk_event) (hq : s.queue s.queue_pos = some ev0)
    (hmsg : (msg.getD []).length = len) :
    ∃ s', zk_unblock N msg len s = .ok s' ∧
      s'.queue s.queue_pos = some
        { type := EVENT_NOTIFY, sender := ev0.sender, join_result := ev0.join_result,
          buf_len := len, buf := msg.getD [] } ∧
      (∀ n, n ≠ s.queue_pos → s'.queue n = s.queue n) ∧
      s'.queue_pos = s.queue_pos ∧
      s'.zk_notify_blocked = false ∧
      s'.called_by_zk_unblock = false ∧
      (s'.nr_zk_levents = s.nr_zk_levents ∧ s'.zk_levent_head = s.zk_levent_head ∧
        s'.zk_levent_tail = s.zk_levent_tail ∧ s'.zk_levents = s.zk_levents) ∧
      s.efd < s'.efd ∧
      s'.trace = s.trace ++ [Obs.zoo_set_queue s.queue_pos
        { type := EVENT_NOTIFY, sender := ev0.sender, join_result := ev0.join_result,
          buf_len := len, buf := msg.getD [] }] := by
  have hbuf : (match msg with
      | some m => memcpy ev0.buf m len
      | none => ev0.buf).take len = msg.getD [] := by
    cases msg with
    | none =>
      simp only [Option.getD_none, List.length_nil] at hmsg
      subst hmsg
      simp
    | some m => exact memcpy_take _ _ _ hmsg
  unfold zk_unblock
  rw [zk_queue_pop_head N { s with called_by_zk_unblock := true } ev0 (Or.inl rfl) hq]
  unfold zk_queue_push_back zk_set_data zk_queue_peek_next_notify zk_node_exists_queue
    eventfd_write event_data
  dsimp only
  split_ifs with h1 h2
  · simp only [add_sub_cancel_right, hq]
    refine ⟨_, rfl, ?_, ?_, rfl, rfl, rfl, ⟨rfl, rfl, rfl, rfl⟩, ?_, ?_⟩
    · simp [hbuf]
    · intro n hn; simp [hn]
    · simp
    · simp [hbuf]
  · simp only [add_sub_cancel_right, hq]
    refine ⟨_, rfl, ?_, ?_, rfl, rfl, rfl, ⟨rfl, rfl, rfl, rfl⟩, ?_, ?_⟩
    · simp [hbuf]
    · intro n hn; simp [hn]
    · simp; omega
    · simp [hbuf]
  · simp only [add_sub_cancel_right, hq]
    refine ⟨_, rfl, ?_, ?_, rfl, rfl, rfl, ⟨rfl, rfl, rfl, rfl⟩, ?_, ?_⟩
    · simp [hbuf]
    · intro n hn; simp [hn]
    · simp
    · simp [hbuf]

/-- Witness of C3: `zk_unblock("done", 4)` in `sample_blocked`, whose cursor 0 is at
`sample_block`, clears the block flag. -/
theorem C3_unblock_rewrites_head_witness :
    sample_blocked.queue sample_blocked.queue_pos = some sample_block ∧
    ∃ s', zk_unblock 1024 (some [100, 111, 110, 101]) 4 sample_blocked = .ok s' ∧
      s'.zk_notify_blocked = false := by
  refine ⟨rfl, ?_⟩
  obtain ⟨s', h1, _, _, _, h5, _⟩ :=
    C3_unblock_rewrites_head 1024 (some [100, 111, 110, 101]) 4 sample_blocked sample_block
      rfl rfl
  exact ⟨s', h1, h5⟩

/-! ### C4: the block/unblock scenario on node A -/

/-- C4: on node A with member set {A,B}, cursor 2, `queue/2` = BLOCK(A),
`queue/3` = NOTIFY(B,"z") and `sd_block_handler` answering true: (1) the dispatcher
step on slot 2 calls `sd_block_handler(A)`, sets `zk_notify_blocked` and leaves the
cursor at 2; (2) a further dispatcher step, whatever the eventfd counter `w`, the
epoll flags and the callback answers are, delivers nothing and changes neither the
cursor nor the flag (it ends the process on EPOLLHUP and otherwise only resets the
eventfd counter); (3) `zk_unblock("done", 4)` returns, `queue/2` then holds
NOTIFY(A,"done") and the flag is clear; (4) the next two dispatcher steps call
`sd_notify_handler(A,"done",4)` and then `sd_notify_handler(B,"z",1)`, once each,
and leave the cursor at 4. -/
theorem C4_block_unblock_scenario (N : Nat) :
    (zk_event_handler N 0 (block_answer true) (scenario_on member_A)
        = .ok (scenario_A_blocked N) ∧
      (scenario_A_blocked N).zk_notify_blocked = true ∧
      (scenario_A_blocked N).queue_pos = 2 ∧
      (scenario_A_blocked N).trace = [Obs.sd_block_handler node_A]) ∧
    (∀ (w events : Nat) (cb : Callbacks),
      (zk_event_handler N events cb { scenario_A_blocked N with efd := w }).state.trace
          = (scenario_A_blocked N).trace ∧
      (zk_event_handler N events cb { scenario_A_blocked N with efd := w }).state.queue_pos
          = 2 ∧
      (zk_event_handler N events cb
          { scenario_A_blocked N with efd := w }).state.zk_notify_blocked = true ∧
      (zk_event_handler N events cb { scenario_A_blocked N with efd := w }).state.queue
          = scenario_queue ∧
      (zk_event_handler N events cb { scenario_A_blocked N with efd := w }
          = .exited { scenario_A_blocked N with efd := w } ∨
        zk_event_handler N events cb { scenario_A_blocked N with efd := w }
          = .ok { scenario_A_blocked N with efd := 0 })) ∧
    (∀ w : Nat,
      zk_unblock N (some msg_done) 4 { scenario_A_blocked N with efd := w }
          = .ok (scenario_A_unblocked N w) ∧
      (scenario_A_unblocked N w).queue 2 = some notify_A_done ∧
      (scenario_A_unblocked N w).queue 3 = some notify_B_z ∧
      (scenario_A_unblocked N w).zk_notify_blocked = false ∧
      (scenario_A_unblocked N w).queue_pos = 2) ∧
    (∀ (w : Nat) (cb cb' : Callbacks),
      zk_event_handler N 0 cb (scenario_A_unblocked N w) = .ok (scenario_A_first N w cb) ∧
      (scenario_A_first N w cb).trace =
        [Obs.sd_block_handler node_A, Obs.zoo_set_queue 2 notify_A_done,
          Obs.sd_notify_handler node_A msg_done 4] ∧
      zk_event_handler N 0 cb' (scenario_A_first N w cb)
          = .ok (scenario_A_second N w cb cb') ∧
      (scenario_A_second N w cb cb').trace =
        [Obs.sd_block_handler node_A, Obs.zoo_set_queue 2 notify_A_done,
          Obs.sd_notify_handler node_A msg_done 4, Obs.sd_notify_handler node_B [122] 1] ∧
      (scenario_A_second N w cb cb').queue_pos = 4) := by
  refine ⟨⟨rfl, rfl, rfl, rfl⟩, ?_, ?_, ?_⟩
  · intro w events cb
    have hpop : zk_queue_pop N { scenario_A_blocked N with efd := 0 }
        = .fail { scenario_A_blocked N with efd := 0 } :=
      zk_queue_pop_blocked N _ rfl rfl rfl
    unfold zk_event_handler eventfd_read
    split_ifs with h1 h2
    · exact ⟨rfl, rfl, rfl, rfl, Or.inl rfl⟩
    · have hw : w = 0 := h2
      subst hw
      exact ⟨rfl, rfl, rfl, rfl, Or.inr rfl⟩
    · dsimp only
      rw [hpop]
      exact ⟨rfl, rfl, rfl, rfl, Or.inr rfl⟩
  · intro w
    exact ⟨rfl, rfl, rfl, rfl, rfl⟩
  · intro w cb cb'
    exact ⟨rfl, rfl, rfl, rfl, rfl⟩

/-! ### C5: the dead-blocker scenario on node B -/

/-- C5, as stated, fails: on node B with the block flag set by the step on A's
BLOCK, after the deletion of `member/A` the next dispatcher step moves the cursor
to 3 and calls `sd_leave_handler(A,[B])`, a wakeup is pending and `queue/3` holds
NOTIFY(B,"z"), yet the dispatcher step after that calls no handler and leaves the
cursor at 3, because `zk_notify_blocked` is still set. -/
theorem C5_dead_blocker_counterexample :
    (scenario_B_seen 1024 true).zk_notify_blocked = true ∧
    (scenario_B_seen 1024 true).queue_pos = 2 ∧
    (scenario_B_leave 1024 true (block_answer true)).trace
      = [Obs.sd_block_handler node_A, Obs.sd_leave_handler node_A [node_B]] ∧
    (scenario_B_leave 1024 true (block_answer true)).queue_pos = 3 ∧
    (scenario_B_leave 1024 true (block_answer true)).queue 3 = some notify_B_z ∧
    (scenario_B_leave 1024 true (block_answer true)).efd = 2 ∧
    (scenario_B_next 1024 true (block_answer true) (block_answer true)).trace
      = [Obs.sd_block_handler node_A, Obs.sd_leave_handler node_A [node_B]] ∧
    (scenario_B_next 1024 true (block_answer true) (block_answer true)).queue_pos = 3 ∧
    (scenario_B_next 1024 true (block_answer true) (block_answer true)).zk_notify_blocked
      = true :=
  ⟨rfl, rfl, rfl, rfl, rfl, rfl, rfl, rfl, rfl⟩

/-- C5, amended: on node B with member set {A,B} and cursor 2 at A's BLOCK, once
the watcher reported the deletion of `member/A`, the next dispatcher step moves the
cursor to 3 and calls `sd_leave_handler(A,[B])`, whether or not the block flag is
set on B; when the flag is clear on B (`sd_block_handler` answered false there) the
dispatcher step after that calls `sd_notify_handler(B,"z",1)` for the event of
slot 3 and moves the cursor to 4. -/
theorem C5_dead_blocker_amended (cb cb' : Callbacks) :
    (∀ b : Bool,
      zk_event_handler 1024 0 cb (scenario_B_left 1024 b) = .ok (scenario_B_leave 1024 b cb) ∧
      (scenario_B_leave 1024 b cb).queue_pos = 3 ∧
      (scenario_B_leave 1024 b cb).trace
        = [Obs.sd_block_handler node_A, Obs.sd_leave_handler node_A [node_B]]) ∧
    (scenario_B_seen 1024 false).zk_notify_blocked = false ∧
    zk_event_handler 1024 0 cb' (scenario_B_leave 1024 false cb)
      = .ok (scenario_B_next 1024 false cb cb') ∧
    (scenario_B_next 1024 false cb cb').trace
      = [Obs.sd_block_handler node_A, Obs.sd_leave_handler node_A [node_B],
          Obs.sd_notify_handler node_B [122] 1] ∧
    (scenario_B_next 1024 false cb cb').queue_pos = 4 := by
  refine ⟨?_, rfl, rfl, rfl, rfl⟩
  intro b
  cases b <;> exact ⟨rfl, rfl, rfl⟩

/-! ### C6: when a delivered leave moves the cursor -/

theorem is_blocking_event_iff (ev : zk_event) :
    is_blocking_event ev = true ↔ ev.type = EVENT_BLOCK ∨ ev.type = EVENT_JOIN_REQUEST := by
  simp [is_blocking_event]

/-- C6: when `zk_queue_pop` delivers a pending leave (a leave is pending and the
call is not made by `zk_unblock`), it returns 0 with the leave at the head of the
ring and changes no queue znode; the cursor advances by exactly one if the znode at
the cursor exists, has type BLOCK or JOIN_REQUEST and its sender node equals the
leaver's node, and the cursor is unchanged if there is no znode at the cursor, if
the event there is not blocking, or if its sender is a different node. -/
theorem C6_leave_skip_rule (N : Nat) (s : Driver) (hc : s.called_by_zk_unblock = false)
    (hn : s.nr_zk_levents ≠ 0) :
    ∃ s', zk_queue_pop N s = .got (s.zk_levents (s.zk_levent_head % N)) s' ∧
      s'.queue = s.queue ∧
      (∀ ev, s.queue s.queue_pos = some ev →
        (ev.type = EVENT_BLOCK ∨ ev.type = EVENT_JOIN_REQUEST) →
        node_eq ev.sender.node (s.zk_levents (s.zk_levent_head % N)).sender.node = true →
        s'.queue_pos = s.queue_pos + 1) ∧
      (s.queue s.queue_pos = none → s'.queue_pos = s.queue_pos) ∧
      (∀ ev, s.queue s.queue_pos = some ev →
        ¬(ev.type = EVENT_BLOCK ∨ ev.type = EVENT_JOIN_REQUEST) →
        s'.queue_pos = s.queue_pos) ∧
      (∀ ev, s.queue s.queue_pos = some ev →
        node_eq ev.sender.node (s.zk_levents (s.zk_levent_head % N)).sender.node = false →
        s'.queue_pos = s.queue_pos) := by
  obtain ⟨hl, _, _, hpos⟩ := zk_queue_pop_leave N s hc hn
  obtain ⟨hfq, _⟩ := zk_queue_pop_frame N s
  refine ⟨_, hl, hfq, ?_, ?_, ?_, ?_⟩
  · intro ev hq hb he
    rw [hpos]
    simp [dead_blocker_at_cursor, zk_get_data, hq, he, (is_blocking_event_iff ev).mpr hb]
  · intro hq
    rw [hpos]
    simp [dead_blocker_at_cursor, zk_get_data, hq]
  · intro ev hq hb
    rw [← is_blocking_event_iff] at hb
    rw [hpos]
    simp [dead_blocker_at_cursor, zk_get_data, hq, hb]
  · intro ev hq he
    rw [hpos]
    simp [dead_blocker_at_cursor, zk_get_data, hq, he]

/-- Witness of C6: on node B of the dead-blocker scenario one leave is pending, and
the pop returns 0. -/
theorem C6_leave_skip_rule_witness :
    (scenario_B_left 1024 true).called_by_zk_unblock = false ∧
    (scenario_B_left 1024 true).nr_zk_levents ≠ 0 ∧
    (zk_queue_pop 1024 (scenario_B_left 1024 true)).rc = some 0 := by
  have hn : (scenario_B_left 1024 true).nr_zk_levents ≠ 0 := by decide
  refine ⟨rfl, hn, ?_⟩
  obtain ⟨s', h, _⟩ := C6_leave_skip_rule 1024 (scenario_B_left 1024 true) rfl hn
  rw [h]
  rfl

/-! ### C7: the leave channel is first in, first out -/

theorem ring_index_ne (N head i n : Nat) (hin : i < n) (hn : n < N)
    (h : N ∣ UINT_RANGE ∨ head + n < UINT_RANGE) :
    (head + n) % UINT_RANGE % N ≠ (head + i) % UINT_RANGE % N := by
  have e : ∀ x, x ≤ n → (head + x) % UINT_RANGE % N = (head + x) % N := by
    intro x hx
    rcases h with h | h
    · exact Nat.mod_mod_of_dvd _ h
    · rw [Nat.mod_eq_of_lt (show head + x < UINT_RANGE by omega)]
  rw [e n (le_refl _), e i (le_of_lt hin)]
  intro heq
  have h0 := Nat.sub_mod_eq_zero_of_mod_eq heq
  have h1 : head + n - (head + i) = n - i := by omega
  rw [h1, Nat.mod_eq_of_lt (by omega)] at h0
  omega

theorem RingFifo_push (N rem : Nat) (z : zk_node) (r : RingRun)
    (h : RingFifo N (rem + 1) r) (hb : r.s.nr_zk_levents < N) :
    RingFifo N rem (ring_step N (.push z) r) := by
  obtain ⟨hc, h0, _, hh, ht, hlen, hfifo, hty, hslot, hw⟩ := h
  have hw' : N ∣ UINT_RANGE ∨
      r.s.zk_levent_head + r.s.nr_zk_levents.toNat < UINT_RANGE := by
    rcases hw with hw | hw
    · exact Or.inl hw.1
    · exact Or.inr (by omega)
  unfold ring_step leave_event eventfd_write RingFifo
  dsimp only
  refine ⟨hc, by omega, by omega, hh, ?_, ?_, ?_, hty, ?_, ?_⟩
  · rw [ht]; unfold UINT_RANGE; omega
  · rw [List.length_append, List.length_singleton]; omega
  · rw [List.take_append_of_le_length (by omega)]; exact hfifo
  · intro i hi
    by_cases hin : i = r.s.nr_zk_levents.toNat
    · subst hin
      rw [← ht, if_pos rfl]
      refine ⟨rfl, ?_⟩
      rw [List.getElem?_append_right (by omega)]
      have : r.delivered.length + r.s.nr_zk_levents.toNat - r.pushed.length = 0 := by omega
      rw [this]
      rfl
    · have hlt : i < r.s.nr_zk_levents.toNat := by omega
      have hne : (r.s.zk_levent_head + i) % UINT_RANGE % N ≠ r.s.zk_levent_tail % N := by
        rw [ht]
        exact fun heq => ring_index_ne N r.s.zk_levent_head i r.s.nr_zk_levents.toNat hlt
          (by omega) hw' heq.symm
      rw [if_neg hne, List.getElem?_append_left (by omega)]
      exact hslot i hlt
  · unfold ring_no_alias at *
    dsimp only
    rcases hw with hw | hw
    · exact Or.inl hw
    · exact Or.inr (by omega)

theorem RingFifo_pop (N rem : Nat) (r : RingRun) (h : RingFifo N rem r) :
    RingFifo N rem (ring_step N .pop r) := by
  obtain ⟨hc, h0, hN, hh, ht, hlen, hfifo, hty, hslot, hw⟩ := h
  unfold ring_step
  by_cases hn : r.s.nr_zk_levents = 0
  · simp only [hn, ne_eq, not_true_eq_false, if_false]
    obtain ⟨a1, a2, a3, a4, a5⟩ := zk_queue_pop_no_leave N r.s (Or.inr hn)
    unfold RingFifo ring_no_alias
    dsimp only
    rw [a1, a2, a3, a4, a5]
    exact ⟨hc, h0, hN, hh, ht, hlen, hfifo, hty, hslot, hw⟩
  · simp only [hn, ne_eq, not_false_eq_true, if_true]
    obtain ⟨hl, b2, b3, _⟩ := zk_queue_pop_leave N r.s hc hn
    obtain ⟨_, _, _, _, _, _, b7, b8⟩ := zk_queue_pop_frame N r.s
    have hcall := zk_queue_pop_called N r.s
    have hpos : 0 < r.s.nr_zk_levents.toNat := by omega
    obtain ⟨hty0, hsnd0⟩ := hslot 0 hpos
    simp only [Nat.add_zero, Nat.mod_eq_of_lt hh] at hty0 hsnd0
    rw [hl]
    unfold RingFifo ring_no_alias
    dsimp only
    rw [b2, b3, b7, b8, hcall]
    have hidx : ∀ i, ((r.s.zk_levent_head + 1) % UINT_RANGE + i) % UINT_RANGE
        = (r.s.zk_levent_head + (i + 1)) % UINT_RANGE := by
      intro i; unfold UINT_RANGE; omega
    refine ⟨hc, by omega, by omega, by unfold UINT_RANGE; omega, ?_, ?_, ?_, ?_, ?_, ?_⟩
    · rw [ht]; unfold UINT_RANGE; omega
    · rw [List.length_append, List.length_singleton]; omega
    · rw [List.map_append, List.length_append, List.length_singleton, List.take_succ, hfifo,
        hsnd0]
      rfl
    · intro ev hev
      rcases List.mem_append.mp hev with hev | hev
      · exact hty ev hev
      · rw [List.mem_singleton] at hev
        rw [hev]; exact hty0
    · intro i hi
      rw [hidx i, List.length_append, List.length_singleton]
      have := hslot (i + 1) (by omega)
      rw [show r.delivered.length + 1 + i = r.delivered.length + (i + 1) by omega]
      exact this
    · rcases hw with hw | hw
      · exact Or.inl hw
      · right
        rw [Nat.mod_eq_of_lt (by omega)]
        omega

theorem RingFifo_other (N rem : Nat) (queue : Int → Option zk_event) (pos : Int) (b : Bool)
    (r : RingRun) (h : RingFifo N rem r) :
    RingFifo N rem (ring_step N (.other queue pos b) r) := h

theorem RingFifo_run (N : Nat) (ops : List RingOp) :
    ∀ r : RingRun, RingFifo N (ring_pushes ops) r → ring_bounded N ops r →
    RingFifo N 0 (ring_run N ops r) := by
  induction ops with
  | nil => intro r h _; exact h
  | cons op rest ih =>
    intro r h hb
    obtain ⟨hb1, hb2⟩ := hb
    unfold ring_run
    apply ih _ _ hb2
    cases op with
    | push z => exact RingFifo_push N _ z r h hb1
    | pop => exact RingFifo_pop N _ r h
    | other queue pos b => exact RingFifo_other N _ queue pos b r h

/-- C7: take any interleaving of `leave_event` pushes, `zk_queue_pop` calls not
made by `zk_unblock`, and arbitrary changes of the queue, the cursor and the block
flag, started on the empty channel, in which a leave is pushed only while fewer
than `SD_MAX_NODES` are pending; the ring index does not alias (the ring size
divides `2^32` and is smaller, or the unsigned head does not wrap during the run).
Then afterwards the pending count is the number pushed minus the number delivered
and equals `tail - head` in unsigned arithmetic; the senders of the delivered
events are, in order, the first senders pushed, and every delivered event has type
LEAVE; and whenever a leave is pending `zk_queue_pop` returns 0 with an event of
type LEAVE whose sender is the oldest pending one. -/
theorem C7_leave_channel_fifo (N : Nat) (ops : List RingOp) (s0 : Driver)
    (hc : s0.called_by_zk_unblock = false) (hn : s0.nr_zk_levents = 0)
    (hht : s0.zk_levent_tail = s0.zk_levent_head) (hh : s0.zk_levent_head < UINT_RANGE)
    (hb : ring_bounded N ops (ring_start s0))
    (hw : (N ∣ UINT_RANGE ∧ N < UINT_RANGE) ∨
      s0.zk_levent_head + ring_pushes ops < UINT_RANGE) :
    (ring_run N ops (ring_start s0)).s.nr_zk_levents
      = ((ring_run N ops (ring_start s0)).pushed.length : Int)
        - (ring_run N ops (ring_start s0)).delivered.length ∧
    (((ring_run N ops (ring_start s0)).s.zk_levent_tail + UINT_RANGE
        - (ring_run N ops (ring_start s0)).s.zk_levent_head) % UINT_RANGE : Nat)
      = (ring_run N ops (ring_start s0)).s.nr_zk_levents ∧
    (ring_run N ops (ring_start s0)).delivered.map (fun ev => ev.sender)
      = (ring_run N ops (ring_start s0)).pushed.take
          (ring_run N ops (ring_start s0)).delivered.length ∧
    (∀ ev ∈ (ring_run N ops (ring_start s0)).delivered, ev.type = EVENT_LEAVE) ∧
    ((ring_run N ops (ring_start s0)).s.nr_zk_levents ≠ 0 →
      ∃ ev s', zk_queue_pop N (ring_run N ops (ring_start s0)).s = .got ev s' ∧
        ev.type = EVENT_LEAVE ∧
        (ring_run N ops (ring_start s0)).pushed[
          (ring_run N ops (ring_start s0)).delivered.length]? = some ev.sender) := by
  have hstart : RingFifo N (ring_pushes ops) (ring_start s0) := by
    unfold RingFifo ring_no_alias ring_start
    dsimp only
    rw [hn]
    refine ⟨hc, le_refl _, by omega, hh, ?_, rfl, rfl, by simp, ?_, ?_⟩
    · rw [hht]
      simp [Nat.mod_eq_of_lt hh]
    · intro i hi
      simp at hi
    · simpa using hw
  obtain ⟨gc, g0, gN, gh, gt, glen, gfifo, gty, gslot, gw⟩ := RingFifo_run N ops _ hstart hb
  generalize ring_run N ops (ring_start s0) = r at *
  have hlt : r.s.nr_zk_levents.toNat < UINT_RANGE := by
    rcases gw with gw | gw
    · omega
    · omega
  refine ⟨by omega, ?_, gfifo, gty, ?_⟩
  · rw [gt]
    have : (((r.s.zk_levent_head + r.s.nr_zk_levents.toNat) % UINT_RANGE + UINT_RANGE
        - r.s.zk_levent_head) % UINT_RANGE) = r.s.nr_zk_levents.toNat := by
      unfold UINT_RANGE at *
      omega
    rw [this]
    omega
  · intro hne
    have hpos : 0 < r.s.nr_zk_levents.toNat := by omega
    obtain ⟨hty0, hsnd0⟩ := gslot 0 hpos
    simp only [Nat.add_zero, Nat.mod_eq_of_lt gh] at hty0 hsnd0
    exact ⟨_, _, (zk_queue_pop_leave N r.s gc hne).1, hty0, hsnd0⟩

/-- Witness of C7: with a ring of 1024 slots, after A and B left and one pop, the
delivered sender is the first one pushed. -/
theorem C7_leave_channel_fifo_witness :
    ring_bounded 1024 sample_ring_ops (ring_start (zk_init scenario_queue [])) ∧
    (ring_run 1024 sample_ring_ops (ring_start (zk_init scenario_queue []))).delivered.map
        (fun ev => ev.sender)
      = (ring_run 1024 sample_ring_ops (ring_start (zk_init scenario_queue []))).pushed.take
          (ring_run 1024 sample_ring_ops
            (ring_start (zk_init scenario_queue []))).delivered.length :=
  have hb : ring_bounded 1024 sample_ring_ops (ring_start (zk_init scenario_queue [])) :=
    ⟨by decide, by decide, trivial, trivial⟩
  ⟨hb, (C7_leave_channel_fifo 1024 sample_ring_ops (zk_init scenario_queue []) rfl rfl rfl
    (by decide) hb (Or.inl ⟨by decide, by decide⟩)).2.2.1⟩

/-! ### C8: the master rewrites a JOIN_REQUEST in place -/

/-- C8: let the local node be master and let `ev` be the event read from slot `k`,
the cursor standing at `k + 1` after the pop. Whatever `sd_check_join_cb` answers
(`cb.check_join`), after `zk_handle_join_request` the znode `queue/<k>` holds the
JOIN_RESPONSE with that join result, `sender.joined = true`, the sender's node and
client id, `buf_len` and the first `buf_len` payload bytes of `ev`; no other queue
znode changed and the cursor is `k`. When the answer is not MASTER_TRANSFER the
handler returns and `member/` is unchanged; when it is MASTER_TRANSFER the process
exits, and the trace shows the `zoo_set` of slot `k` before the deletion of the
node's own member znode. -/
theorem C8_join_request_rewritten (cb : Callbacks) (ev : zk_event) (s : Driver) (k : Int)
    (hm : is_master s = true) (hpos : s.queue_pos = k + 1) (hq : s.queue k = some ev) :
    (zk_handle_join_request cb ev s).state.queue k
      = some (join_response_of ev cb.check_join) ∧
    (∀ n, n ≠ k → (zk_handle_join_request cb ev s).state.queue n = s.queue n) ∧
    (zk_handle_join_request cb ev s).state.queue_pos = k ∧
    (cb.check_join ≠ .CJ_RES_MASTER_TRANSFER →
      ∃ s', zk_handle_join_request cb ev s = .ok s' ∧ s'.member = s.member ∧
        s'.trace = s.trace ++
          [Obs.sd_check_join_cb ev.sender.node ev.buf,
            Obs.zoo_set_queue k (join_response_of ev cb.check_join)]) ∧
    (cb.check_join = .CJ_RES_MASTER_TRANSFER →
      ∃ s', zk_handle_join_request cb ev s = .exited s' ∧
        s'.member = s.member.filter
          (fun z => !decide (node_to_str z.node = node_to_str s.this_node.node)) ∧
        s'.trace = s.trace ++
          [Obs.sd_check_join_cb ev.sender.node ev.buf,
            Obs.zoo_set_queue k (join_response_of ev .CJ_RES_MASTER_TRANSFER),
            Obs.zoo_delete_member (node_to_str s.this_node.node)]) := by
  have hk : s.queue_pos - 1 = k := by omega
  unfold zk_handle_join_request zk_queue_push_back zk_set_data
  simp only [hm, Bool.not_true, Bool.false_eq_true, if_false, hk, hq]
  by_cases hr : cb.check_join = .CJ_RES_MASTER_TRANSFER
  · simp only [hr, if_true, Outcome.state, zk_leave, zk_delete_node_member, event_data,
      join_response_of]
    refine ⟨by simp, fun n hn => by simp [hn], trivial, fun h => absurd rfl h, fun _ => ?_⟩
    exact ⟨_, rfl, rfl, by simp⟩
  · simp only [hr, if_false, Outcome.state, event_data, join_response_of]
    refine ⟨by simp, fun n hn => by simp [hn], trivial, fun _ => ?_, fun h => h.elim⟩
    exact ⟨_, rfl, rfl, by simp⟩

/-- Witness of C8: at the bootstrap the local node is master, and with the answer
SUCCESS slot 0 then holds JOIN_RESPONSE{SUCCESS} of A. -/
theorem C8_join_request_rewritten_witness :
    is_master bootstrap_popped = true ∧ bootstrap_popped.queue 0 = some join_request_A ∧
    (zk_handle_join_request (block_answer false) join_request_A bootstrap_popped).state.queue 0
      = some (join_response_of join_request_A .CJ_RES_SUCCESS) :=
  ⟨rfl, rfl,
    (C8_join_request_rewritten (block_answer false) join_request_A bootstrap_popped 0
      rfl rfl rfl).1⟩

/-! ### C9: what `zk_tree_destroy` clears on MASTER_TRANSFER -/

/-- C9, the code at the failing input: the joiner C starts with an empty member
tree and an empty snapshot while `member/A` still exists. Handling its own
JOIN_RESPONSE{MASTER_TRANSFER}, `zk_member_init` loads A into the tree,
`zk_tree_destroy` walks the snapshot `sd_nodes`, which is still empty, and deletes
nothing, so the member set afterwards is {A, C} and `sd_join_handler` receives the
snapshot [A, C] instead of [C]. -/
theorem C9_master_transfer_keeps_loaded_members :
    ∃ s', run 1024 transfer_run (zk_init (fun _ => none) [member_A]) = .ok s' ∧
      rb_inorder s'.zk_node_root = [member_A, member_C] ∧
      s'.sd_nodes = [node_A, node_C] ∧
      s'.trace.getLast? = some
        (Obs.sd_join_handler node_C [node_A, node_C] .CJ_RES_MASTER_TRANSFER []) :=
  ⟨_, rfl, rfl, rfl, rfl⟩

/-! ### C10: `is_master` -/

theorem is_master_iff_of_TreeOk (s : Driver) (h : TreeOk s) :
    is_master s = true ↔ master_by_spec s := by
  obtain ⟨hsorted, hsnap⟩ := h
  unfold is_master nr_sd_nodes zk_member_empty master_by_spec
  rw [hsnap, List.length_map, rb_first_head]
  unfold rb_sorted at hsorted
  cases hl : rb_inorder s.zk_node_root with
  | nil => simp
  | cons m0 rest =>
    rw [hl] at hsorted
    have hmin : ∀ x ∈ m0 :: rest, m0.node.nid ≤ x.node.nid := by
      intro x hx
      rcases List.mem_cons.mp hx with rfl | hx
      · exact le_refl _
      · exact le_of_lt (List.rel_of_pairwise_cons hsorted hx)
    simp only [List.length_cons, Nat.succ_ne_zero, if_false, List.head?_cons,
      Bool.if_true_left, Bool.or_false, List.cons_ne_nil, false_and, false_or,
      Nat.add_one_ne_zero]
    constructor
    · intro hm
      exact ⟨m0, List.mem_cons_self _ _, hmin, by simpa using hm⟩
    · rintro ⟨m, hmem, hle, heq⟩
      have h1 := hle m0 (List.mem_cons_self _ _)
      have h2 := hmin m hmem
      have h3 : m0.node.nid = m.node.nid := le_antisymm h2 h1
      rw [node_eq_iff] at heq
      have : node_eq m0.node s.this_node.node = true := by
        rw [node_eq_iff, h3, heq]
      simpa using this

/-- C10: in every reachable driver state, and in the state in which the dispatcher
step taken there enters a handler (after `eventfd_read` and a `zk_queue_pop`
returning 0), `is_master` returns true if and only if either the member set is
empty and `member/` has no child, or the member set is not empty and its element
with the smallest node-id is `this_node`. -/
theorem C10_is_master_iff (N : Nat) (s : Driver) (hr : Reachable N s) :
    (is_master s = true ↔ master_by_spec s) ∧
    ∀ (s1 s2 : Driver) (ev : zk_event), eventfd_read s = some s1 →
      zk_queue_pop N s1 = .got ev s2 → (is_master s2 = true ↔ master_by_spec s2) := by
  have hinv := Reachable_inv N s hr
  refine ⟨is_master_iff_of_TreeOk s hinv.2.1, ?_⟩
  intro s1 s2 ev hread hpop
  apply is_master_iff_of_TreeOk
  unfold eventfd_read at hread
  split_ifs at hread
  cases hread
  have := zk_queue_pop_inv N { s with efd := 0 } (DriverInv_efd N s 0 hinv)
  rw [hpop] at this
  exact this.2.1

/-- Witness of C10: in the reachable state `sample_woken` the member set and
`member/` are empty, and `is_master` returns true. -/
theorem C10_is_master_iff_witness :
    Reachable 1024 sample_woken ∧ master_by_spec sample_woken ∧
    is_master sample_woken = true :=
  ⟨sample_woken_reachable, Or.inl ⟨rfl, rfl⟩,
    (C10_is_master_iff 1024 sample_woken sample_woken_reachable).1.mpr (Or.inl ⟨rfl, rfl⟩)⟩

/-! ### C11: `zk_tree_add` -/

theorem rb_sorted_node (l r : rb_node) (e : zk_node) (h : rb_sorted (.node l e r)) :
    rb_sorted l ∧ rb_sorted r ∧ (∀ a ∈ rb_inorder l, a.node.nid < e.node.nid) ∧
    (∀ b ∈ rb_inorder r, e.node.nid < b.node.nid) := by
  unfold rb_sorted at h
  simp only [rb_inorder, List.pairwise_append, List.pairwise_cons, List.mem_cons] at h
  obtain ⟨hl, ⟨her, hr⟩, hlr⟩ := h
  exact ⟨hl, hr, fun a ha => hlr a ha e (Or.inl rfl), her⟩

theorem zk_tree_search_mem (k : Nat) (t : rb_node) (x : zk_node)
    (h : zk_tree_search k t = some x) : x ∈ rb_inorder t ∧ x.node.nid = k := by
  induction t with
  | nil => simp [zk_tree_search] at h
  | node l e r ihl ihr =>
    unfold zk_tree_search at h
    simp only [rb_inorder, List.mem_append, List.mem_cons]
    split_ifs at h with h1 h2
    · exact ⟨Or.inl (ihl h).1, (ihl h).2⟩
    · exact ⟨Or.inr (Or.inr (ihr h).1), (ihr h).2⟩
    · cases h
      rw [node_id_cmp_neg] at h1
      rw [gt_iff_lt, ← gt_iff_lt, node_id_cmp_pos] at h2
      exact ⟨Or.inr (Or.inl rfl), by omega⟩

theorem zk_tree_search_of_mem (t : rb_node) (x : zk_node) (ht : rb_sorted t)
    (hx : x ∈ rb_inorder t) : zk_tree_search x.node.nid t = some x := by
  induction t with
  | nil => simp [rb_inorder] at hx
  | node l e r ihl ihr =>
    obtain ⟨hl, hr, hlt, hgt⟩ := rb_sorted_node l r e ht
    simp only [rb_inorder, List.mem_append, List.mem_cons] at hx
    unfold zk_tree_search
    rcases hx with hx | hx | hx
    · have := hlt x hx
      rw [if_pos ((node_id_cmp_neg _ _).mpr this)]
      exact ihl hl hx
    · subst hx
      rw [if_neg (by rw [node_id_cmp_neg]; omega), if_neg (by rw [node_id_cmp_pos]; omega)]
    · have := hgt x hx
      rw [if_neg (by rw [node_id_cmp_neg]; omega), if_pos ((node_id_cmp_pos _ _).mpr this)]
      exact ihr hr hx

theorem zk_tree_insert_fst (new : zk_node) (t : rb_node) :
    (zk_tree_insert new t).1 = zk_tree_search new.node.nid t := by
  induction t with
  | nil => rfl
  | node l e r ihl ihr =>
    unfold zk_tree_insert zk_tree_search
    split_ifs
    · exact ihl
    · exact ihr
    · rfl

theorem zk_tree_insert_found (new e : zk_node) (t : rb_node)
    (h : zk_tree_search new.node.nid t = some e) : (zk_tree_insert new t).2 = t := by
  induction t with
  | nil => simp [zk_tree_search] at h
  | node l x r ihl ihr =>
    unfold zk_tree_search at h
    unfold zk_tree_insert
    split_ifs at h ⊢
    · rw [ihl h]
    · rw [ihr h]
    · rfl

theorem zk_tree_insert_perm (new : zk_node) (t : rb_node)
    (h : zk_tree_search new.node.nid t = none) :
    (rb_inorder (zk_tree_insert new t).2).Perm (new :: rb_inorder t) := by
  induction t with
  | nil => simp [zk_tree_insert, rb_inorder]
  | node l x r ihl ihr =>
    unfold zk_tree_search at h
    unfold zk_tree_insert
    split_ifs at h ⊢
    · simp only [rb_inorder]
      exact (List.Perm.append_right _ (ihl h)).trans (by simp)
    · simp only [rb_inorder]
      have := ihr h
      exact (List.Perm.append_left (rb_inorder l) (List.Perm.cons x this)).trans
        ((List.Perm.append_left (rb_inorder l) (List.Perm.swap new x _)).trans
          List.perm_middle)

theorem zk_tree_search_insert (new : zk_node) (t : rb_node) :
    zk_tree_search new.node.nid (zk_tree_insert new t).2
      = some ((zk_tree_search new.node.nid t).getD new) := by
  induction t with
  | nil =>
    simp [zk_tree_insert, zk_tree_search, node_id_cmp]
  | node l x r ihl ihr =>
    unfold zk_tree_insert
    split_ifs with h1 h2
    · simp only
      rw [zk_tree_search, if_pos h1, ihl]
      conv_rhs => rw [zk_tree_search, if_pos h1]
    · simp only
      rw [zk_tree_search, if_neg h1, if_pos h2, ihr]
      conv_rhs => rw [zk_tree_search, if_neg h1, if_pos h2]
    · simp only
      rw [zk_tree_search, if_neg h1, if_neg h2]
      rfl

/-- C11: for every member tree in search order and every record `r`: if a record
`x` with the node-id of `r` is present, `zk_tree_add r` returns the tree itself (so
`x`, with its joined flag and client id, stays as stored) and the lookup of the
node-id yields `x`; if no such record is present, the members afterwards are the
old members plus `r` and the lookup yields `r`; in both cases the lookup succeeds,
the order is kept, and adding `r` a second time changes nothing. -/
theorem C11_tree_add (r : zk_node) (t : rb_node) (ht : rb_sorted t) :
    (∀ x ∈ rb_inorder t, x.node.nid = r.node.nid →
      zk_tree_add r t = t ∧ zk_tree_search r.node.nid (zk_tree_add r t) = some x) ∧
    ((∀ x ∈ rb_inorder t, x.node.nid ≠ r.node.nid) →
      (rb_inorder (zk_tree_add r t)).Perm (r :: rb_inorder t) ∧
      zk_tree_search r.node.nid (zk_tree_add r t) = some r) ∧
    (zk_tree_search r.node.nid (zk_tree_add r t)).isSome = true ∧
    rb_sorted (zk_tree_add r t) ∧
    zk_tree_add r (zk_tree_add r t) = zk_tree_add r t := by
  unfold zk_tree_add
  refine ⟨?_, ?_, ?_, rb_sorted_insert r t ht, ?_⟩
  · intro x hx hnid
    have hs : zk_tree_search r.node.nid t = some x := by
      rw [← hnid]; exact zk_tree_search_of_mem t x ht hx
    rw [zk_tree_insert_found r x t hs]
    exact ⟨rfl, hs⟩
  · intro hno
    have hs : zk_tree_search r.node.nid t = none := by
      cases h : zk_tree_search r.node.nid t with
      | none => rfl
      | some x =>
        obtain ⟨h1, h2⟩ := zk_tree_search_mem _ _ _ h
        exact absurd h2 (hno x h1)
    refine ⟨zk_tree_insert_perm r t hs, ?_⟩
    rw [zk_tree_search_insert, hs]
    rfl
  · rw [zk_tree_search_insert]
    rfl
  · exact zk_tree_insert_found r _ _ (zk_tree_search_insert r t)

/-- Witness of C11: adding the record of B to the tree that holds A. -/
theorem C11_tree_add_witness :
    rb_sorted (zk_tree_add member_A .nil) ∧
    zk_tree_add member_B (zk_tree_add member_B (zk_tree_add member_A .nil))
      = zk_tree_add member_B (zk_tree_add member_A .nil) :=
  ⟨rb_sorted_insert member_A .nil (by simp [rb_sorted, rb_inorder]),
    (C11_tree_add member_B (zk_tree_add member_A .nil)
      (rb_sorted_insert member_A .nil (by simp [rb_sorted, rb_inorder]))).2.2.2.2⟩

/-! ### C12: the snapshot of `build_node_list` -/

theorem TreeBuilt_sorted (t : rb_node) (h : TreeBuilt t) : rb_sorted t := by
  induction h with
  | empty => simp [rb_sorted, rb_inorder]
  | add z t _ ih => exact rb_sorted_insert z t ih
  | del z t _ ih => exact rb_sorted_erase _ t ih

theorem ascending_of_sorted (t : rb_node) (h : rb_sorted t) :
    ascending ((rb_inorder t).map (fun zk => zk.node)) := by
  unfold ascending
  rw [List.pairwise_map]
  exact h

theorem ascending_nodup (nodes : List sd_node) (h : ascending nodes) : nodes.Nodup := by
  unfold ascending at h
  exact List.Pairwise.imp (fun {a b} hab heq => by rw [heq] at hab; exact lt_irrefl _ hab) h

theorem is_member_iff (t : rb_node) (ht : rb_sorted t) (z : zk_node) :
    is_member z t ↔ z ∈ rb_inorder t :=
  ⟨fun h => (zk_tree_search_mem _ _ _ h).1, fun h => zk_tree_search_of_mem t z ht h⟩

theorem zk_handle_join_response_tail_last (ev : zk_event) (s s' : Driver)
    (h : zk_handle_join_response_tail ev s = .ok s') :
    ∃ pre, s'.trace = pre ++
      [Obs.sd_join_handler ev.sender.node s'.sd_nodes ev.join_result ev.buf] := by
  unfold zk_handle_join_response_tail at h
  dsimp only at h
  split at h
  · cases h
    exact ⟨_, rfl⟩
  · rename_i o hne
    exact absurd h (hne s')

/-- C12: let the member tree `t` of state `s` be built by any sequence of
`zk_tree_add` and `zk_tree_del` calls. Then `build_node_list` stores the nodes of
exactly the members (the records the lookup finds), each once (the list has no
duplicate), in strictly ascending node-id order, and `nr_sd_nodes` becomes the number
of members. Consequently, when `zk_handle_leave` or `zk_handle_join_response` returns
from such a state, either nothing was added to the trace or the last call is the
leave or join handler with the snapshot `sd_nodes`, which is ascending and free of
duplicates. -/
theorem C12_snapshot_sorted (t : rb_node) (hb : TreeBuilt t) (s : Driver)
    (hs : s.zk_node_root = t) :
    (∀ n, n ∈ (build_node_list s).sd_nodes ↔ ∃ z, is_member z t ∧ z.node = n) ∧
    (build_node_list s).sd_nodes.Nodup ∧
    ascending (build_node_list s).sd_nodes ∧
    (build_node_list s).sd_nodes = (rb_inorder t).map (fun zk => zk.node) ∧
    nr_sd_nodes (build_node_list s) = (rb_inorder t).length ∧
    (∀ cb ev s', zk_handle_leave cb ev s = .ok s' →
      s'.trace = s.trace ∨
      (s'.trace = s.trace ++ [Obs.sd_leave_handler ev.sender.node s'.sd_nodes] ∧
        ascending s'.sd_nodes ∧ s'.sd_nodes.Nodup)) ∧
    (∀ cb ev s', zk_handle_join_response cb ev s = .ok s' →
      s'.trace = s.trace ∨
      ((∃ pre, s'.trace = pre ++
          [Obs.sd_join_handler ev.sender.node s'.sd_nodes ev.join_result ev.buf]) ∧
        ascending s'.sd_nodes ∧ s'.sd_nodes.Nodup)) := by
  have hsorted := TreeBuilt_sorted t hb
  have hasc : ascending (build_node_list s).sd_nodes := by
    simp only [build_node_list, hs]
    exact ascending_of_sorted t hsorted
  refine ⟨?_, ascending_nodup _ hasc, hasc, by simp [build_node_list, hs],
    by simp [nr_sd_nodes, build_node_list, hs], ?_, ?_⟩
  · intro n
    simp only [build_node_list, hs, List.mem_map]
    constructor
    · rintro ⟨z, hz, rfl⟩
      exact ⟨z, (is_member_iff t hsorted z).mpr hz, rfl⟩
    · rintro ⟨z, hz, rfl⟩
      exact ⟨z, (is_member_iff t hsorted z).mp hz, rfl⟩
  · intro cb ev s' h
    unfold zk_handle_leave at h
    split at h
    · cases h
      exact Or.inl rfl
    · rename_i m _
      cases h
      right
      have hasc' := ascending_of_sorted (zk_tree_del m s.zk_node_root)
        (rb_sorted_erase _ _ (hs ▸ hsorted))
      exact ⟨rfl, hasc', ascending_nodup _ hasc'⟩
  · intro cb ev s' h
    have htail : zk_handle_join_response_tail ev s = .ok s' →
        (∃ pre, s'.trace = pre ++
          [Obs.sd_join_handler ev.sender.node s'.sd_nodes ev.join_result ev.buf]) ∧
        ascending s'.sd_nodes ∧ s'.sd_nodes.Nodup := by
      intro h'
      obtain ⟨_, hsort', hsnap'⟩ := zk_handle_join_response_tail_inv ev s s' h'
        (hs ▸ hsorted)
      have hasc' : ascending s'.sd_nodes := by
        rw [hsnap']; exact ascending_of_sorted _ hsort'
      exact ⟨zk_handle_join_response_tail_last ev s s' h', hasc', ascending_nodup _ hasc'⟩
    unfold zk_handle_join_response at h
    split_ifs at h
    · cases h
      exact Or.inl rfl
    · exact Or.inr (htail h)
    · exact Or.inr (htail h)

/-- Witness of C12: the tree built by adding B and then A yields the snapshot
[A, B]. -/
theorem C12_snapshot_sorted_witness :
    TreeBuilt (zk_tree_add member_A (zk_tree_add member_B .nil)) ∧
    (build_node_list
      { scenario_on member_A with
        zk_node_root := zk_tree_add member_A (zk_tree_add member_B .nil) }).sd_nodes
      = [node_A, node_B] :=
  ⟨TreeBuilt.add _ _ (TreeBuilt.add _ _ TreeBuilt.empty),
    (C12_snapshot_sorted _ (TreeBuilt.add _ _ (TreeBuilt.add _ _ TreeBuilt.empty))
      { scenario_on member_A with
        zk_node_root := zk_tree_add member_A (zk_tree_add member_B .nil) } rfl).2.2.2.1⟩

/-! ### C13: the first push sets the cursor -/

theorem match_literal_append (lit rest : List Nat) :
    match_literal lit (lit ++ rest) = some rest := by
  induction lit with
  | nil => cases rest <;> rfl
  | cons c lit ih => simp [match_literal, ih]

theorem scan_digits_dec (w : Nat) : ∀ (n acc : Nat) (rest : List Nat),
    scan_digits (dec_digits w n ++ rest) acc
      = scan_digits rest (acc * 10 ^ w + n % 10 ^ w) := by
  induction w with
  | zero =>
    intro n acc rest
    simp [dec_digits, Nat.mod_one]
  | succ w ih =>
    intro n acc rest
    have hd : is_digit (48 + n % 10) = true := by
      have : n % 10 < 10 := Nat.mod_lt _ (by decide)
      simp [is_digit]
      omega
    have hmod : n % 10 ^ (w + 1) = n % 10 + 10 * (n / 10 % 10 ^ w) := by
      rw [pow_succ, Nat.mul_comm, Nat.mod_mul]
    rw [dec_digits, List.append_assoc, ih, List.singleton_append, scan_digits, if_pos hd,
      hmod]
    congr 1
    rw [Nat.add_sub_cancel_left]
    ring

theorem dec_digits_head (w n : Nat) :
    ∃ d tl, d < 10 ∧ dec_digits (w + 1) n = (48 + d) :: tl := by
  induction w generalizing n with
  | zero => exact ⟨n % 10, [], Nat.mod_lt _ (by decide), by simp [dec_digits]⟩
  | succ w ih =>
    obtain ⟨d, tl, hd, he⟩ := ih (n / 10)
    refine ⟨d, tl ++ [48 + n % 10], hd, ?_⟩
    rw [dec_digits, he]
    rfl

theorem sscanf_d_dec (w n : Nat) :
    sscanf_d (dec_digits (w + 1) n) = some ((n % 10 ^ (w + 1) : Nat) : Int) := by
  obtain ⟨d, tl, hd, he⟩ := dec_digits_head w n
  have hval := scan_digits_dec (w + 1) n 0 []
  rw [List.append_nil, he] at hval
  have hsp : is_space (48 + d) = false := by simp [is_space]; omega
  have hdig : is_digit (48 + d) = true := by simp [is_digit]; omega
  unfold sscanf_d
  rw [he, List.dropWhile_cons_of_neg (by simp [hsp])]
  simp only
  rw [if_neg (by omega), if_neg (by omega), scan_unsigned, if_pos hdig, hval]
  simp [scan_digits]

theorem sscanf_created_path (n : Nat) (h : n < 10000000000) :
    sscanf_queue_seq (created_path n) = some (n : Int) := by
  unfold sscanf_queue_seq created_path
  rw [match_literal_append]
  show sscanf_d (dec_digits (9 + 1) n) = some (n : Int)
  rw [sscanf_d_dec 9 n, Nat.mod_eq_of_lt (by omega)]

/-- C13: let the service assign the sequence number `n`, `0 ≤ n < 2^31`, to the
znode created by `zk_queue_push`, so that the path returned is
`/sheepdog/queue/` followed by the ten zero-padded decimal digits of `n`. Parsing
that path as the code does yields `n`, the cursor value computed from it is `n`, and
formatting the cursor `n` yields the same path again. When this is the first push of
the process, the cursor becomes `n`, a wakeup is posted and `first_push` is cleared;
every later push leaves the cursor and the eventfd counter as they are. -/
theorem C13_first_push_sets_cursor (n : Nat) (hn : n < 2147483648) (junk : Nat)
    (ev : zk_event) (s : Driver) :
    sscanf_queue_seq (created_path n) = some (n : Int) ∧
    first_push_cursor (created_path n) junk = (n : Int) ∧
    sprintf_queue_path (n : Int) = created_path n ∧
    (s.first_push = true →
      (zk_queue_push (first_push_cursor (created_path n) junk) ev s).queue_pos = (n : Int) ∧
      (zk_queue_push (first_push_cursor (created_path n) junk) ev s).efd = s.efd + 1 ∧
      (zk_queue_push (first_push_cursor (created_path n) junk) ev s).first_push = false) ∧
    (s.first_push = false → ∀ seq : Int,
      (zk_queue_push seq ev s).queue_pos = s.queue_pos ∧
      (zk_queue_push seq ev s).efd = s.efd ∧
      (zk_queue_push seq ev s).first_push = false) := by
  have hscan := sscanf_created_path n (by omega)
  have hcur : first_push_cursor (created_path n) junk = (n : Int) := by
    unfold first_push_cursor
    rw [hscan]
    simp only [uint32_of_int, int32_of_uint32]
    have h1 : ((n : Int) % 4294967296).toNat = n := by omega
    rw [h1, Nat.mod_eq_of_lt (by omega), if_pos hn]
  refine ⟨hscan, hcur, ?_, ?_, ?_⟩
  · unfold sprintf_queue_path created_path
    rw [if_pos (by omega), Int.toNat_ofNat]
  · intro hf
    rw [hcur]
    simp [zk_queue_push, zk_create_node_queue, eventfd_write, hf]
  · intro hf seq
    simp [zk_queue_push, zk_create_node_queue, hf]

/-- Witness of C13: the first push of a fresh process, the service assigning the
sequence number 7. -/
theorem C13_first_push_sets_cursor_witness :
    (7 : Nat) < 2147483648 ∧
    (zk_queue_push (first_push_cursor (created_path 7) 0) block_A
      (zk_init scenario_queue [])).queue_pos = 7 :=
  ⟨by decide,
    ((C13_first_push_sets_cursor 7 (by decide) 0 block_A (zk_init scenario_queue [])).2.2.2.1
      rfl).1⟩

/-! ### C14: `zk_queue_push_back` keeps the slot -/

/-- C14: when the cursor is `p` and `queue/<p-1>` exists, `zk_queue_push_back(ev)`
returns with the cursor at `p - 1`, the data of `queue/<p-1>` replaced by the bytes
sent for `ev` (its header and first `buf_len` payload bytes), every other queue
znode holding what it held, the same set of sequence numbers in use and `member/`
unchanged. -/
theorem C14_push_back_in_place (ev old : zk_event) (s : Driver)
    (hq : s.queue (s.queue_pos - 1) = some old) :
    ∃ s', zk_queue_push_back ev s = .ok s' ∧
      s'.queue_pos = s.queue_pos - 1 ∧
      s'.queue (s.queue_pos - 1) = some (event_data ev) ∧
      (∀ n, n ≠ s.queue_pos - 1 → s'.queue n = s.queue n) ∧
      (∀ n, (s'.queue n).isSome = (s.queue n).isSome) ∧
      s'.member = s.member := by
  unfold zk_queue_push_back zk_set_data
  simp only [hq]
  refine ⟨_, rfl, rfl, by simp, fun n hn => by simp [hn], ?_, rfl⟩
  intro n
  by_cases hn : n = s.queue_pos - 1
  · simp [hn, hq]
  · simp [hn]

/-- Witness of C14: at the bootstrap the cursor is 1 and `queue/0` exists. -/
theorem C14_push_back_in_place_witness :
    bootstrap_popped.queue (bootstrap_popped.queue_pos - 1) = some join_request_A ∧
    ∃ s', zk_queue_push_back notify_B_z bootstrap_popped = .ok s' ∧ s'.queue_pos = 0 := by
  refine ⟨rfl, ?_⟩
  obtain ⟨s', h1, h2, _⟩ := C14_push_back_in_place notify_B_z join_request_A bootstrap_popped rfl
  exact ⟨s', h1, h2⟩

/-! ### C15: what is sent is what is read back -/

/-- C15: let `mem` hold a `struct zk_event` (header of `H` bytes in any layout,
then `buf` of `MAX` bytes) whose `buf_len` is at most `MAX`, whatever its type.
Sending its first `H + buf_len` bytes as `zk_queue_push` and `zk_queue_push_back` do
and reading them into an uninitialised struct as `zk_queue_pop` does yields an event
with the same type, sender, join result and `buf_len` and the same first `buf_len`
payload bytes; so both are the same znode content `event_data`. -/
theorem C15_send_receive_roundtrip (H MAX : Nat) (decode : List Nat → zk_event)
    (mem garbage : List Nat) (hm : mem.length = H + MAX) (hg : garbage.length = H + MAX)
    (hlen : (raw_view H decode mem).buf_len ≤ MAX) :
    (raw_view H decode (raw_receive (raw_send H decode mem) garbage)).type
      = (raw_view H decode mem).type ∧
    (raw_view H decode (raw_receive (raw_send H decode mem) garbage)).sender
      = (raw_view H decode mem).sender ∧
    (raw_view H decode (raw_receive (raw_send H decode mem) garbage)).join_result
      = (raw_view H decode mem).join_result ∧
    (raw_view H decode (raw_receive (raw_send H decode mem) garbage)).buf_len
      = (raw_view H decode mem).buf_len ∧
    (raw_view H decode (raw_receive (raw_send H decode mem) garbage)).buf.take
        (raw_view H decode mem).buf_len
      = (raw_view H decode mem).buf.take (raw_view H decode mem).buf_len ∧
    event_data (raw_view H decode (raw_receive (raw_send H decode mem) garbage))
      = event_data (raw_view H decode mem) := by
  generalize hL : (raw_view H decode mem).buf_len = L at hlen
  have hsend : raw_send H decode mem = mem.take (H + L) := by
    unfold raw_send; rw [hL]
  have hdl : (mem.take (H + L)).length = H + L := by
    rw [List.length_take]; omega
  have hrecv : raw_receive (raw_send H decode mem) garbage
      = mem.take (H + L) ++ garbage.drop (H + L) := by
    unfold raw_receive
    rw [hsend, hdl, hg, List.take_of_length_le (by omega), Nat.min_eq_left (by omega)]
  have hhdr : (raw_receive (raw_send H decode mem) garbage).take H = mem.take H := by
    rw [hrecv, List.take_append_of_le_length (by omega), List.take_take,
      Nat.min_eq_left (by omega)]
  have hbuf : ((raw_receive (raw_send H decode mem) garbage).drop H).take L
      = (mem.drop H).take L := by
    rw [hrecv, List.drop_append_of_le_length (by omega),
      List.take_append_of_le_length (by rw [List.length_drop]; omega), List.drop_take,
      List.take_take]
    congr 1
    omega
  have hview : ∀ m, (raw_view H decode m).buf = m.drop H := fun m => rfl
  have hsame : decode ((raw_receive (raw_send H decode mem) garbage).take H)
      = decode (mem.take H) := by rw [hhdr]
  have hL' : (decode (mem.take H)).buf_len = L := hL
  refine ⟨?_, ?_, ?_, ?_, ?_, ?_⟩
  · show (decode _).type = (decode _).type
    rw [hsame]
  · show (decode _).sender = (decode _).sender
    rw [hsame]
  · show (decode _).join_result = (decode _).join_result
    rw [hsame]
  · show (decode _).buf_len = L
    rw [hsame]; exact hL'
  · rw [hview, hview]; exact hbuf
  · unfold event_data raw_view
    simp only [hsame, hL']
    rw [hbuf]

/-- Witness of C15: the memory `sample_mem` in the seven-cell layout, read into a
struct full of other bytes, shows "z" again. -/
theorem C15_send_receive_roundtrip_witness :
    (raw_view 7 sample_decode sample_mem).buf_len ≤ 3 ∧
    (raw_view 7 sample_decode
      (raw_receive (raw_send 7 sample_decode sample_mem)
        [0, 0, 0, 0, 0, 0, 0, 1, 2, 3])).buf.take 1 = [122] :=
  ⟨by decide,
    (C15_send_receive_roundtrip 7 3 sample_decode sample_mem [0, 0, 0, 0, 0, 0, 0, 1, 2, 3]
      rfl rfl (by decide)).2.2.2.2.1⟩

/-! ### C16: the cursor after a complete step -/

theorem zk_handle_join_request_pos (cb : Callbacks) (ev : zk_event) (s : Driver) :
    (zk_handle_join_request cb ev s).state.queue_pos = s.queue_pos - 1 := by
  unfold zk_handle_join_request zk_queue_push_back zk_set_data zk_leave zk_delete_node_member
  dsimp only
  cases hq : s.queue (s.queue_pos - 1) <;> dsimp only <;> split_ifs <;> rfl

theorem zk_handle_join_response_tail_pos (ev : zk_event) (s : Driver) :
    (zk_handle_join_response_tail ev s).state.queue_pos = s.queue_pos := by
  unfold zk_handle_join_response_tail zk_create_node_member zk_member_init zk_tree_destroy
    build_node_list
  dsimp only
  cases ev.join_result <;> dsimp only <;> split_ifs <;> rfl

theorem zk_handle_join_response_pos (cb : Callbacks) (ev : zk_event) (s : Driver) :
    (zk_handle_join_response cb ev s).state.queue_pos = s.queue_pos := by
  unfold zk_handle_join_response
  split_ifs
  · rfl
  · exact zk_handle_join_response_tail_pos ev s
  · exact zk_handle_join_response_tail_pos ev s

theorem zk_handle_leave_pos (cb : Callbacks) (ev : zk_event) (s : Driver) :
    (zk_handle_leave cb ev s).state.queue_pos = s.queue_pos := by
  obtain ⟨s', he, _, hp, _⟩ := zk_handle_leave_frame cb ev s
  rw [he]; exact hp

theorem zk_handle_block_pos (cb : Callbacks) (ev : zk_event) (s : Driver) :
    (zk_handle_block cb ev s).state.queue_pos = s.queue_pos - 1 := by
  unfold zk_handle_block
  dsimp only
  split_ifs <;> rfl

theorem zk_handle_notify_pos (cb : Callbacks) (ev : zk_event) (s : Driver) :
    (zk_handle_notify cb ev s).state.queue_pos = s.queue_pos := rfl

theorem zk_event_handlers_pos (cb : Callbacks) (ev : zk_event) (s : Driver)
    (handler : Callbacks → zk_event → Driver → Outcome)
    (hh : zk_event_handlers ev.type = some handler) :
    (handler cb ev s).state.queue_pos = s.queue_pos ∨
    (handler cb ev s).state.queue_pos = s.queue_pos - 1 := by
  unfold zk_event_handlers at hh
  split at hh <;> cases hh
  · exact Or.inr (zk_handle_join_request_pos cb ev s)
  · exact Or.inl (zk_handle_join_response_pos cb ev s)
  · exact Or.inl (zk_handle_leave_pos cb ev s)
  · exact Or.inr (zk_handle_block_pos cb ev s)
  · exact Or.inl (zk_handle_notify_pos cb ev s)

theorem zk_queue_pop_queue_path (N : Nat) (s : Driver)
    (h : s.called_by_zk_unblock = true ∨ s.nr_zk_levents = 0) :
    zk_queue_pop N s = .fail s ∨ zk_queue_pop N s = .panicked s ∨
    ∃ ev s2, zk_queue_pop N s = .got ev s2 ∧ s2.queue_pos = s.queue_pos + 1 := by
  have hcond : (!s.called_by_zk_unblock && decide (s.nr_zk_levents ≠ 0)) = false := by
    rcases h with h | h <;> simp [h]
  have hgot : ∀ ev, s.queue s.queue_pos = some ev →
      (s.called_by_zk_unblock = true ∨
        (s.nr_zk_levents = 0 ∧ s.zk_notify_blocked = false)) →
      ∃ ev s2, zk_queue_pop N s = .got ev s2 ∧ s2.queue_pos = s.queue_pos + 1 := by
    intro ev hq hc
    refine ⟨ev, _, zk_queue_pop_head N s ev hc hq, ?_⟩
    unfold zk_queue_peek_next_notify eventfd_write
    split_ifs <;> rfl
  cases hq : s.queue s.queue_pos with
  | none =>
    left
    unfold zk_queue_pop zk_queue_empty zk_node_exists_queue
    simp only [hcond, Bool.false_eq_true, if_false, hq, Option.isSome_none, Bool.not_false,
      if_true]
    split_ifs <;> rfl
  | some ev =>
    rcases h with h | h
    · exact Or.inr (Or.inr (hgot ev hq (Or.inl h)))
    · by_cases hb : s.zk_notify_blocked = true
      · by_cases hc : s.called_by_zk_unblock = true
        · exact Or.inr (Or.inr (hgot ev hq (Or.inl hc)))
        · left
          exact zk_queue_pop_blocked N s (by simpa using hc) h hb
      · exact Or.inr (Or.inr (hgot ev hq (Or.inr ⟨h, by simpa using hb⟩)))

/-- C16: in every reachable state, a complete dispatcher step, however it ends,
leaves the cursor where it was or exactly one further; a complete `zk_unblock`
call, in any state and however it ends, leaves the cursor where it was (its pop
advances it and `zk_queue_push_back` steps it back). -/
theorem C16_cursor_per_step (N : Nat) (s : Driver) (hr : Reachable N s) :
    (∀ events cb,
      (zk_event_handler N events cb s).state.queue_pos = s.queue_pos ∨
      (zk_event_handler N events cb s).state.queue_pos = s.queue_pos + 1) ∧
    (∀ (s0 : Driver) msg len, (zk_unblock N msg len s0).state.queue_pos = s0.queue_pos) := by
  have hinv := Reachable_inv N s hr
  refine ⟨?_, ?_⟩
  · intro events cb
    unfold zk_event_handler eventfd_read
    split_ifs
    · exact Or.inl rfl
    · exact Or.inl rfl
    · dsimp only
      have hinv0 := DriverInv_efd N s 0 hinv
      by_cases hn : s.nr_zk_levents = 0
      · rcases zk_queue_pop_queue_path N { s with efd := 0 } (Or.inr hn) with h | h | h
        · rw [h]; exact Or.inl rfl
        · rw [h]; exact Or.inl rfl
        · obtain ⟨ev, s2, h, hp⟩ := h
          rw [h]
          dsimp only
          have hp' : s2.queue_pos = s.queue_pos + 1 := hp
          split_ifs
          · split
            · rename_i handler hh
              rcases zk_event_handlers_pos cb ev s2 handler hh with h1 | h1
              · exact Or.inr (by rw [h1, hp'])
              · exact Or.inl (by rw [h1, hp']; omega)
            · exact Or.inr hp'
          · exact Or.inr hp'
      · obtain ⟨hl, _, _, hpos⟩ := zk_queue_pop_leave N { s with efd := 0 } hinv.2.2 hn
        have hty := RingOk_head_type N { s with efd := 0 } hinv0.1 hn
        rw [hl]
        dsimp only
        rw [hty]
        simp only [EVENT_LEAVE, zk_max_event_handlers, zk_event_handlers]
        norm_num
        rw [zk_handle_leave_pos, hpos]
        split_ifs
        · exact Or.inr rfl
        · exact Or.inl rfl
  · intro s0 msg len
    unfold zk_unblock
    rcases zk_queue_pop_queue_path N { s0 with called_by_zk_unblock := true } (Or.inl rfl)
      with h | h | h
    · rw [h]; rfl
    · rw [h]; rfl
    · obtain ⟨ev, s2, h, hp⟩ := h
      rw [h]
      have hp' : s2.queue_pos = s0.queue_pos + 1 := hp
      unfold zk_queue_push_back zk_set_data eventfd_write
      dsimp only
      cases hq : s2.queue (s2.queue_pos - 1) <;> simp only [Outcome.state, hp'] <;> omega

/-- Witness of C16: the dispatcher step on the BLOCK of `sample_woken` leaves the
cursor at 0. -/
theorem C16_cursor_per_step_witness :
    Reachable 1024 sample_woken ∧
    ((zk_event_handler 1024 0 sample_cb sample_woken).state.queue_pos = sample_woken.queue_pos ∨
      (zk_event_handler 1024 0 sample_cb sample_woken).state.queue_pos
        = sample_woken.queue_pos + 1) :=
  ⟨sample_woken_reachable,
    (C16_cursor_per_step 1024 sample_woken sample_woken_reachable).1 0 sample_cb⟩

/-! ### C17: `zk_handle_leave` -/

theorem rb_inorder_erase (k : Nat) (t : rb_node) (ht : rb_sorted t) :
    rb_inorder (rb_erase k t)
      = (rb_inorder t).filter (fun x => decide (x.node.nid ≠ k)) := by
  induction t with
  | nil => rfl
  | node l e r ihl ihr =>
    obtain ⟨hl, hr, hlt, hgt⟩ := rb_sorted_node l r e ht
    have hfl : k ≤ e.node.nid →
        (rb_inorder r).filter (fun x => decide (x.node.nid ≠ k)) = rb_inorder r := by
      intro hk
      rw [List.filter_eq_self]
      intro a ha
      have := hgt a ha
      simp; omega
    have hfr : e.node.nid ≤ k →
        (rb_inorder l).filter (fun x => decide (x.node.nid ≠ k)) = rb_inorder l := by
      intro hk
      rw [List.filter_eq_self]
      intro a ha
      have := hlt a ha
      simp; omega
    rcases lt_trichotomy k e.node.nid with h | h | h
    · rw [rb_erase, if_pos ((node_id_cmp_neg _ _).mpr h)]
      simp only [rb_inorder, List.filter_append, List.filter_cons]
      rw [if_pos (by simp; omega), ihl hl, hfl (le_of_lt h)]
    · rw [rb_erase, if_neg (by rw [node_id_cmp_neg]; omega),
        if_neg (by rw [node_id_cmp_pos]; omega)]
      simp only [rb_inorder, List.filter_append, List.filter_cons]
      rw [if_neg (by simp; omega), hfl (le_of_eq h), hfr (le_of_eq h.symm)]
      cases hm : rb_first r with
      | none =>
        rw [rb_first_none r hm]
        simp [rb_inorder]
      | some m =>
        simp only [rb_inorder]
        rw [rb_first_cons r m hm]
    · rw [rb_erase, if_neg (by rw [node_id_cmp_neg]; omega),
        if_pos ((node_id_cmp_pos _ _).mpr h)]
      simp only [rb_inorder, List.filter_append, List.filter_cons]
      rw [if_pos (by simp; omega), ihr hr, hfr (le_of_lt h)]

theorem sorted_split (l : List zk_node) (x : zk_node)
    (hs : l.Pairwise (fun a b => a.node.nid < b.node.nid)) (hx : x ∈ l) :
    ∃ pre post, l = pre ++ x :: post ∧
      l.filter (fun y => decide (y.node.nid ≠ x.node.nid)) = pre ++ post := by
  obtain ⟨pre, post, rfl⟩ := List.append_of_mem hx
  refine ⟨pre, post, rfl, ?_⟩
  rw [List.pairwise_append] at hs
  obtain ⟨_, hxp, hpre⟩ := hs
  rw [List.pairwise_cons] at hxp
  rw [List.filter_append, List.filter_cons]
  have h1 : pre.filter (fun y => decide (y.node.nid ≠ x.node.nid)) = pre := by
    rw [List.filter_eq_self]
    intro a ha
    have := hpre a ha x (List.mem_cons_self _ _)
    simp; omega
  have h2 : post.filter (fun y => decide (y.node.nid ≠ x.node.nid)) = post := by
    rw [List.filter_eq_self]
    intro a ha
    have := hxp.1 a ha
    simp; omega
  rw [h1, h2]
  simp

/-- C17: let the member tree of `s` be in search order (as in every reachable
state). If no member has the node-id of the sender of the LEAVE, `zk_handle_leave`
returns the state unchanged: member set, snapshot and trace are as before, so
`sd_leave_handler` is not called. If a member `x` has that node-id, the handler
returns, the members afterwards are the old ones with exactly `x` taken out
(`pre ++ x :: post` becomes `pre ++ post`), the snapshot is the ascending list of the
remaining members, and the one call added to the trace is `sd_leave_handler` with the
sender and that snapshot. -/
theorem C17_leave_drops_or_removes (cb : Callbacks) (ev : zk_event) (s : Driver)
    (ht : rb_sorted s.zk_node_root) :
    ((∀ x ∈ rb_inorder s.zk_node_root, x.node.nid ≠ ev.sender.node.nid) →
      zk_handle_leave cb ev s = .ok s) ∧
    (∀ x ∈ rb_inorder s.zk_node_root, x.node.nid = ev.sender.node.nid →
      ∃ s' pre post, zk_handle_leave cb ev s = .ok s' ∧
        rb_inorder s.zk_node_root = pre ++ x :: post ∧
        rb_inorder s'.zk_node_root = pre ++ post ∧
        s'.sd_nodes = (pre ++ post).map (fun zk => zk.node) ∧
        ascending s'.sd_nodes ∧
        s'.trace = s.trace ++ [Obs.sd_leave_handler ev.sender.node s'.sd_nodes]) := by
  refine ⟨?_, ?_⟩
  · intro hno
    have hs : zk_tree_search ev.sender.node.nid s.zk_node_root = none := by
      cases h : zk_tree_search ev.sender.node.nid s.zk_node_root with
      | none => rfl
      | some x =>
        obtain ⟨h1, h2⟩ := zk_tree_search_mem _ _ _ h
        exact absurd h2 (hno x h1)
    unfold zk_handle_leave
    rw [hs]
  · intro x hx hnid
    have hs : zk_tree_search ev.sender.node.nid s.zk_node_root = some x := by
      rw [← hnid]; exact zk_tree_search_of_mem _ x ht hx
    obtain ⟨pre, post, hsplit, hfilter⟩ := sorted_split _ x ht hx
    have hin : rb_inorder (zk_tree_del x s.zk_node_root) = pre ++ post := by
      unfold zk_tree_del
      rw [rb_inorder_erase _ _ ht, hfilter]
    unfold zk_handle_leave
    rw [hs]
    refine ⟨_, pre, post, rfl, hsplit, hin, ?_, ?_, rfl⟩
    · simp only [build_node_list, hin]
    · have := ascending_of_sorted _ (rb_sorted_erase x.node.nid _ ht)
      simpa [build_node_list, zk_tree_del] using this

/-- Witness of C17: on node B with members {A, B}, a LEAVE of A removes A and calls
`sd_leave_handler(A, [B])`. -/
theorem C17_leave_drops_or_removes_witness :
    rb_sorted (scenario_on member_B).zk_node_root ∧
    ∃ s', zk_handle_leave sample_cb leave_A (scenario_on member_B) = .ok s' ∧
      s'.trace = (scenario_on member_B).trace ++ [Obs.sd_leave_handler node_A s'.sd_nodes] := by
  have hsorted : rb_sorted (scenario_on member_B).zk_node_root :=
    rb_sorted_insert member_B _ (rb_sorted_insert member_A .nil (by simp [rb_sorted, rb_inorder]))
  refine ⟨hsorted, ?_⟩
  obtain ⟨s', _, _, h1, _, _, _, _, h6⟩ :=
    (C17_leave_drops_or_removes sample_cb leave_A (scenario_on member_B) hsorted).2 member_A
      (by decide) rfl
  exact ⟨s', h1, h6⟩

/-! ### C18: the watcher on a session event -/

/-- C18, the code on a session event: `ZOO_SESSION_EVENT` is negative, so the
guard `type < 0` at the top of `zk_watcher` returns before the branch that copies
the client id; the state is returned as it is, in particular `this_node.clientid`
stays what it was whatever the client's current id `cid` is (no wakeup is posted and
the leave ring is untouched). -/
theorem C18_session_event_discarded (N : Nat) (path : ZPath) (cid : Nat) (junk : zk_node)
    (s : Driver) :
    ZOO_SESSION_EVENT < 0 ∧
    zk_watcher N ZOO_SESSION_EVENT path cid junk s = s ∧
    (zk_watcher N ZOO_SESSION_EVENT path cid junk s).this_node.clientid
      = s.this_node.clientid := by
  have h : zk_watcher N ZOO_SESSION_EVENT path cid junk s = s := by
    unfold zk_watcher
    rw [if_pos (Or.inl (by decide))]
  exact ⟨by decide, h, by rw [h]⟩

/-! ### C19: which watcher events post a wakeup -/

/-- C19, as stated, fails: a DELETED event on the queue znode `queue/3`, and an
event of type `ZOO_NOTWATCHING_EVENT`, are neither session, child nor
member-deletion events, yet `zk_watcher` leaves the eventfd counter at 0: no wakeup
is posted. -/
theorem C19_watcher_counterexample :
    (zk_watcher 1024 ZOO_DELETED_EVENT (.queue 3) 0 member_A
      (zk_init scenario_queue [])).efd = 0 ∧
    (zk_watcher 1024 ZOO_NOTWATCHING_EVENT (.queue 3) 0 member_A
      (zk_init scenario_queue [])).efd = 0 :=
  ⟨rfl, rfl⟩

/-- C19, amended: for a watcher event whose type is not negative and is neither
`ZOO_CHILD_EVENT` nor `ZOO_DELETED_EVENT` (so for CREATED and CHANGED, on queue
znodes as on any other path), `zk_watcher` posts one wakeup and changes nothing
else, the leave ring included; a `ZOO_CHILD_EVENT`, an event of negative type and a
DELETED event on a path that is not under `member/` post no wakeup and change
nothing. -/
theorem C19_watcher_wakeups (N : Nat) (type : Int) (path : ZPath) (cid : Nat)
    (junk : zk_node) (s : Driver) :
    (0 ≤ type → type ≠ ZOO_CHILD_EVENT → type ≠ ZOO_DELETED_EVENT →
      zk_watcher N type path cid junk s = eventfd_write s) ∧
    (type = ZOO_CHILD_EVENT → zk_watcher N type path cid junk s = s) ∧
    (type < 0 → zk_watcher N type path cid junk s = s) ∧
    (type = ZOO_DELETED_EVENT → path.under_member = false →
      zk_watcher N type path cid junk s = s) := by
  refine ⟨?_, ?_, ?_, ?_⟩
  · intro h0 hc hd
    unfold zk_watcher
    have hs : type ≠ ZOO_SESSION_EVENT := by
      unfold ZOO_SESSION_EVENT; omega
    rw [if_neg (by rintro (h | h); omega; exact hc h), if_neg hs]
    simp only [if_neg hd]
  · intro hc
    unfold zk_watcher
    rw [if_pos (Or.inr hc)]
  · intro hneg
    unfold zk_watcher
    rw [if_pos (Or.inl hneg)]
  · intro hd hp
    subst hd
    cases path <;>
      simp [zk_watcher, ZOO_DELETED_EVENT, ZOO_CHILD_EVENT, ZOO_SESSION_EVENT,
        ZPath.under_member] at hp ⊢

/-- Witness of C19: a CREATED event on `queue/3` posts a wakeup. -/
theorem C19_watcher_wakeups_witness :
    (0 : Int) ≤ ZOO_CREATED_EVENT ∧
    (zk_watcher 1024 ZOO_CREATED_EVENT (.queue 3) 0 member_A (zk_init scenario_queue [])).efd
      = 1 := by
  refine ⟨by decide, ?_⟩
  rw [(C19_watcher_wakeups 1024 ZOO_CREATED_EVENT (.queue 3) 0 member_A
    (zk_init scenario_queue [])).1 (by decide) (by decide) (by decide)]
  rfl

/-! ### C20: the wait for the member znode -/

theorem wait_member_created_zero (absent : Nat → Bool) (retry : Nat) :
    ∀ i, wait_member_created absent retry i ≤ 0 ↔ ∀ j, j < retry → absent (i + j) = true := by
  induction retry with
  | zero => intro i; simp [wait_member_created]
  | succ r ih =>
    intro i
    unfold wait_member_created
    by_cases ha : absent i = true
    · rw [if_pos ha, ih (i + 1)]
      constructor
      · intro h j hj
        cases j with
        | zero => simpa using ha
        | succ j =>
          have := h j (by omega)
          rwa [show i + 1 + j = i + (j + 1) by omega] at this
      · intro h j hj
        have := h (j + 1) (by omega)
        rwa [show i + (j + 1) = i + 1 + j by omega] at this
    · rw [if_neg ha]
      constructor
      · intro h; omega
      · intro h
        exact absurd (by simpa using h 0 (by omega)) ha

theorem wait_member_polls_le (absent : Nat → Bool) (retry : Nat) :
    ∀ i, wait_member_polls absent retry i ≤ retry := by
  induction retry with
  | zero => intro i; simp [wait_member_polls]
  | succ r ih =>
    intro i
    unfold wait_member_polls
    split_ifs
    · have := ih (i + 1); omega
    · omega

theorem wait_member_created_congr (absent absent' : Nat → Bool) (retry : Nat) :
    ∀ i, (∀ j, j < retry → absent' (i + j) = absent (i + j)) →
      wait_member_created absent' retry i = wait_member_created absent retry i := by
  induction retry with
  | zero => intro i _; rfl
  | succ r ih =>
    intro i h
    unfold wait_member_created
    have h0 : absent' i = absent i := by simpa using h 0 (by omega)
    rw [h0]
    split_ifs
    · apply ih
      intro j hj
      have := h (j + 1) (by omega)
      rwa [show i + (j + 1) = i + 1 + j by omega] at this
    · rfl

theorem zk_handle_join_response_tail_other (ev : zk_event) (s : Driver)
    (hne : node_eq ev.sender.node s.this_node.node = false) :
    ∃ s', zk_handle_join_response_tail ev s = .ok s' ∧
      s'.trace = s.trace ++
        [Obs.sd_join_handler ev.sender.node s'.sd_nodes ev.join_result ev.buf] := by
  unfold zk_handle_join_response_tail
  simp only [hne, Bool.false_eq_true, if_false]
  have ho : (match ev.join_result with
      | .CJ_RES_FAIL => Outcome.ok
          { (if ev.join_result = .CJ_RES_MASTER_TRANSFER then zk_tree_destroy s else s) with
            zk_node_root := zk_tree_add ev.sender
              (if ev.join_result = .CJ_RES_MASTER_TRANSFER then zk_tree_destroy s
                else s).zk_node_root }
      | _ =>
        if node_eq ev.sender.node
            ({ (if ev.join_result = .CJ_RES_MASTER_TRANSFER then zk_tree_destroy s else s) with
              zk_node_root := zk_tree_add ev.sender
                (if ev.join_result = .CJ_RES_MASTER_TRANSFER then zk_tree_destroy s
                  else s).zk_node_root } : Driver).this_node.node = true then
          zk_create_node_member ev.sender
            { (if ev.join_result = .CJ_RES_MASTER_TRANSFER then zk_tree_destroy s else s) with
              zk_node_root := zk_tree_add ev.sender
                (if ev.join_result = .CJ_RES_MASTER_TRANSFER then zk_tree_destroy s
                  else s).zk_node_root }
        else Outcome.ok
          { (if ev.join_result = .CJ_RES_MASTER_TRANSFER then zk_tree_destroy s else s) with
            zk_node_root := zk_tree_add ev.sender
              (if ev.join_result = .CJ_RES_MASTER_TRANSFER then zk_tree_destroy s
                else s).zk_node_root }) =
      Outcome.ok
        { (if ev.join_result = .CJ_RES_MASTER_TRANSFER then zk_tree_destroy s else s) with
          zk_node_root := zk_tree_add ev.sender
            (if ev.join_result = .CJ_RES_MASTER_TRANSFER then zk_tree_destroy s
              else s).zk_node_root } := by
    have hthis : (if ev.join_result = .CJ_RES_MASTER_TRANSFER then zk_tree_destroy s
        else s).this_node = s.this_node := by
      split_ifs <;> rfl
    split
    · rfl
    · rw [if_neg]
      show ¬ node_eq ev.sender.node
        (if ev.join_result = .CJ_RES_MASTER_TRANSFER then zk_tree_destroy s
          else s).this_node.node = true
      rw [hthis, hne]
      simp
  rw [ho]
  refine ⟨_, rfl, ?_⟩
  have htr : (if ev.join_result = .CJ_RES_MASTER_TRANSFER then zk_tree_destroy s
      else s).trace = s.trace := by
    split_ifs <;> rfl
  simp only [build_node_list, htr]

/-- C20: let the local node be master and the JOIN_RESPONSE be about another node.
The retry budget is `MEMBER_CREATE_TIMEOUT / MEMBER_CREATE_INTERVAL = 3000`; the
wait loop makes at most 3000 `zk_node_exists` polls and its result depends on the
answers of the first 3000 polls only. If the znode was absent at every one of these
polls, the handler returns the state unchanged (member set, snapshot and trace as
before, `sd_join_handler` not called); if it was not absent at one of them, the
handler returns with `sd_join_handler` called, so the event is not dropped. -/
theorem C20_join_wait_bounded (cb : Callbacks) (ev : zk_event) (s : Driver)
    (hm : is_master s = true)
    (hne : node_eq ev.sender.node s.this_node.node = false) :
    MEMBER_CREATE_TIMEOUT / MEMBER_CREATE_INTERVAL = 3000 ∧
    wait_member_polls cb.member_absent (MEMBER_CREATE_TIMEOUT / MEMBER_CREATE_INTERVAL) 0
      ≤ 3000 ∧
    (∀ absent' : Nat → Bool, (∀ j, j < 3000 → absent' j = cb.member_absent j) →
      wait_member_created absent' 3000 0 = wait_member_created cb.member_absent 3000 0) ∧
    ((∀ j, j < 3000 → cb.member_absent j = true) → zk_handle_join_response cb ev s = .ok s) ∧
    ((∃ j, j < 3000 ∧ cb.member_absent j = false) →
      ∃ s', zk_handle_join_response cb ev s = .ok s' ∧
        s'.trace = s.trace ++
          [Obs.sd_join_handler ev.sender.node s'.sd_nodes ev.join_result ev.buf]) := by
  have hbudget : MEMBER_CREATE_TIMEOUT / MEMBER_CREATE_INTERVAL = 3000 := by decide
  have hzero := wait_member_created_zero cb.member_absent 3000 0
  simp only [Nat.zero_add] at hzero
  refine ⟨hbudget, ?_, ?_, ?_, ?_⟩
  · rw [hbudget]; exact wait_member_polls_le _ _ _
  · intro absent' h
    apply wait_member_created_congr
    intro j hj
    simpa using h j hj
  · intro hall
    unfold zk_handle_join_response
    rw [hbudget, if_pos (by simp [hm, hne]), if_pos (hzero.mpr hall)]
  · rintro ⟨j, hj, hfalse⟩
    have hnz : ¬ wait_member_created cb.member_absent 3000 0 ≤ 0 := by
      intro h
      have := hzero.mp h j hj
      rw [hfalse] at this
      exact absurd this (by simp)
    unfold zk_handle_join_response
    rw [hbudget, if_pos (by simp [hm, hne]), if_neg hnz]
    exact zk_handle_join_response_tail_other ev s hne

/-- Witness of C20: on the master A, the response about B is dropped when
`member/B` is absent at all 3000 polls. -/
theorem C20_join_wait_bounded_witness :
    is_master master_A_alone = true ∧
    node_eq join_response_B.sender.node master_A_alone.this_node.node = false ∧
    zk_handle_join_response never_created join_response_B master_A_alone
      = .ok master_A_alone :=
  ⟨rfl, rfl,
    (C20_join_wait_bounded never_created join_response_B master_A_alone rfl rfl).2.2.2.1
      (fun _ _ => rfl)⟩

/-! ### C21: the wakeup after a delivered leave -/

theorem zk_queue_pop_leave_efd (N : Nat) (s : Driver) (hc : s.called_by_zk_unblock = false)
    (hn : s.nr_zk_levents ≠ 0) :
    (zk_queue_pop N s).state.efd
      = s.efd
        + (if dead_blocker_at_cursor N s = true ∧ (s.queue (s.queue_pos + 1)).isSome = true
            then 1 else 0)
        + (if s.nr_zk_levents - 1 ≠ 0 ∨ (s.queue s.queue_pos).isSome = true
            then 1 else 0) := by
  unfold zk_queue_pop zk_queue_peek_next_notify eventfd_write dead_blocker_at_cursor zk_get_data
    zk_node_exists_queue
  simp only [hc, hn, Bool.not_false, ne_eq, not_false_eq_true, decide_True, Bool.and_self,
    if_true, PopResult.state]
  cases hq : s.queue s.queue_pos with
  | none => simp; split_ifs <;> simp
  | some ev =>
    dsimp only
    split_ifs <;> simp_all

/-- C21: when `zk_queue_pop` delivers a leave (a leave is pending and the call is
not made by `zk_unblock`), the eventfd counter never decreases, and it has grown,
i.e. a wakeup has been posted, whenever a further leave is still pending after the
pop, and whenever a queue znode exists at the cursor as it stands when the pop
returns, be it the old cursor or the one just advanced past the dead blocker's
event. -/
theorem C21_leave_reposts_wakeup (N : Nat) (s : Driver)
    (hc : s.called_by_zk_unblock = false) (hn : s.nr_zk_levents ≠ 0) :
    ∃ s', zk_queue_pop N s = .got (s.zk_levents (s.zk_levent_head % N)) s' ∧
      s.efd ≤ s'.efd ∧
      (s'.nr_zk_levents ≠ 0 → s.efd < s'.efd) ∧
      ((s'.queue s'.queue_pos).isSome = true → s.efd < s'.efd) ∧
      (dead_blocker_at_cursor N s = true →
        s'.queue_pos = s.queue_pos + 1 ∧
        ((s.queue (s.queue_pos + 1)).isSome = true → s.efd + 2 ≤ s'.efd)) := by
  obtain ⟨hl, hnr, _, hpos⟩ := zk_queue_pop_leave N s hc hn
  obtain ⟨hfq, _⟩ := zk_queue_pop_frame N s
  have hefd := zk_queue_pop_leave_efd N s hc hn
  refine ⟨_, hl, ?_, ?_, ?_, ?_⟩
  · rw [hefd]; omega
  · intro h
    rw [hnr] at h
    rw [hefd, if_pos (Or.inl h)]
    omega
  · intro h
    rw [hfq, hpos] at h
    rw [hefd]
    by_cases hd : dead_blocker_at_cursor N s = true
    · rw [if_pos hd] at h
      rw [if_pos ⟨hd, h⟩]
      omega
    · rw [if_neg hd] at h
      rw [if_pos (Or.inr h)]
      omega
  · intro hd
    refine ⟨by rw [hpos, if_pos hd], ?_⟩
    intro h
    have hold : (s.queue s.queue_pos).isSome = true := by
      unfold dead_blocker_at_cursor zk_get_data at hd
      cases hq : s.queue s.queue_pos with
      | none => rw [hq] at hd; simp at hd
      | some ev => rfl
    rw [hefd, if_pos ⟨hd, h⟩, if_pos (Or.inr hold)]

/-- Witness of C21: on node B of the dead-blocker scenario the pop that delivers
the leave of A finds `queue/3` behind the skipped BLOCK and posts a wakeup. -/
theorem C21_leave_reposts_wakeup_witness :
    (scenario_B_left 1024 false).called_by_zk_unblock = false ∧
    (scenario_B_left 1024 false).nr_zk_levents ≠ 0 ∧
    ∃ s', zk_queue_pop 1024 (scenario_B_left 1024 false)
        = .got ((scenario_B_left 1024 false).zk_levents
            ((scenario_B_left 1024 false).zk_levent_head % 1024)) s' ∧
      (scenario_B_left 1024 false).efd < s'.efd := by
  have hn : (scenario_B_left 1024 false).nr_zk_levents ≠ 0 := by decide
  refine ⟨rfl, hn, ?_⟩
  obtain ⟨s', h1, _, _, _, h5⟩ :=
    C21_leave_reposts_wakeup 1024 (scenario_B_left 1024 false) rfl hn
  have := (h5 rfl).2 rfl
  exact ⟨s', h1, by omega⟩

end Zookeeper
